/-
Verification of the ScheduleMaker pipeline (csse120 courseware).

The Python source (src/ScheduleMaker/ScheduleMaker.py) is shallowly
embedded here.  Python strings are modelled as `List Char`; Python
`datetime.date` values are modelled by their proleptic-Gregorian
ordinal (a `Nat`, with ordinal 1 = 0001-01-01, exactly Python's
`date.toordinal`); fallible code returns `Option`/`Except`.
-/
import Mathlib

/-- Convert a Lean string literal to the `List Char` representation used
throughout this development for Python strings. -/
def str (s : String) : List Char := s.data

/-- Python substring containment (`needle in haystack` for `str`). -/
def substr (needle : List Char) : List Char → Bool
  | [] => needle.isEmpty
  | c :: hs => needle.isPrefixOf (c :: hs) || substr needle hs

/-- Python `text.split(sep)` for a single-character separator: the list of
maximal separator-free pieces; splitting the empty string yields `[[]]`. -/
def splitOnChar (sep : Char) : List Char → List (List Char)
  | [] => [[]]
  | c :: cs =>
    if c = sep then [] :: splitOnChar sep cs
    else
      match splitOnChar sep cs with
      | [] => [[c]]
      | l :: ls => (c :: l) :: ls

/-- Python `'\n'.join(lines)` (specialised to joining with a newline). -/
def joinNL : List (List Char) → List Char
  | [] => []
  | [l] => l
  | l :: ls => l ++ '\n' :: joinNL ls

/-- Python `s.replace(old, new)`: replace all non-overlapping occurrences of
`old`, scanning left to right.  (All uses in the source have `old ≠ []`.) -/
def replaceAll (old new : List Char) (s : List Char) : List Char :=
  match s with
  | [] => []
  | c :: cs =>
    if old ≠ [] ∧ old.isPrefixOf (c :: cs) then
      new ++ replaceAll old new (cs.drop (old.length - 1))
    else
      c :: replaceAll old new cs
termination_by s.length
decreasing_by
  · simp only [List.length_drop, List.length_cons]
    omega
  · simp only [List.length_cons]
    omega

/-! ## Comment Stripper (ScheduleMaker.strip_comments)

Module constants from the source:
`COMMENT_BEGIN_INDICATOR = r'^!!! BEGIN COMMENT'`,
`COMMEND_END_INDICATOR = r'^!!! END COMMENT'`,
`COMMENT_INDICATOR = "!!!"`.
The begin indicator is tested with Python `in` (substring containment of
the raw pattern string, caret included); the end indicator is tested
with `re.match`, which anchors at the start of the line, so it holds
exactly when the line starts with `!!! END COMMENT`. -/

def COMMENT_BEGIN_INDICATOR : List Char := str "^!!! BEGIN COMMENT"

def COMMENT_END_MATCHES (line : List Char) : Bool :=
  (str "!!! END COMMENT").isPrefixOf line

def COMMENT_INDICATOR : List Char := str "!!!"

/-- The line loop of `strip_comments`: the `Bool` is the
`i_am_inside_a_comment` flag. -/
def stripLines : Bool → List (List Char) → List (List Char)
  | _, [] => []
  | true, l :: ls =>
    if COMMENT_END_MATCHES l then stripLines false ls else stripLines true ls
  | false, l :: ls =>
    if substr COMMENT_BEGIN_INDICATOR l = true then stripLines true ls
    else if substr COMMENT_INDICATOR l = false then l :: stripLines false ls
    else stripLines false ls

/-- `ScheduleMaker.strip_comments`: split the raw data into lines, run the
comment-removal loop, and re-join with newlines. -/
def strip_comments (raw : List Char) : List Char :=
  joinNL (stripLines false (splitOnChar '\n' raw))

/-! ## Basic lemmas about `substr`, `splitOnChar`, `joinNL`, `stripLines` -/

theorem substr_iff {n h : List Char} :
    substr n h = true ↔ ∃ x y, h = x ++ (n ++ y) := by
  induction h with
  | nil =>
    simp only [substr, List.isEmpty_iff]
    constructor
    · rintro rfl
      exact ⟨[], [], rfl⟩
    · rintro ⟨x, y, hxy⟩
      rcases List.append_eq_nil.mp hxy.symm with ⟨rfl, h2⟩
      rcases List.append_eq_nil.mp h2 with ⟨rfl, rfl⟩
      rfl
  | cons c hs ih =>
    simp only [substr, Bool.or_eq_true, List.isPrefixOf_iff_prefix]
    constructor
    · rintro (⟨t, ht⟩ | hsub)
      · exact ⟨[], t, ht.symm⟩
      · rcases ih.mp hsub with ⟨x, y, rfl⟩
        exact ⟨c :: x, y, rfl⟩
    · rintro ⟨x, y, hxy⟩
      cases x with
      | nil => exact Or.inl ⟨y, by simpa using hxy.symm⟩
      | cons a x' =>
        rcases List.cons_eq_cons.mp hxy with ⟨rfl, h2⟩
        exact Or.inr (ih.mpr ⟨x', y, h2⟩)

theorem substr_trans {a b c : List Char} (hab : substr a b = true)
    (hbc : substr b c = true) : substr a c = true := by
  rcases substr_iff.mp hab with ⟨x, y, rfl⟩
  rcases substr_iff.mp hbc with ⟨u, v, rfl⟩
  exact substr_iff.mpr ⟨u ++ x, y ++ v, by simp⟩

theorem splitOnChar_ne_nil (sep : Char) (s : List Char) :
    splitOnChar sep s ≠ [] := by
  induction s with
  | nil => simp [splitOnChar]
  | cons c cs ih =>
    simp only [splitOnChar]
    split
    · simp
    · split
      · simp
      · simp

theorem mem_splitOnChar_no_sep {sep : Char} {s l : List Char}
    (hl : l ∈ splitOnChar sep s) : sep ∉ l := by
  induction s generalizing l with
  | nil =>
    simp only [splitOnChar, List.mem_singleton] at hl
    subst hl; simp
  | cons c cs ih =>
    simp only [splitOnChar] at hl
    split at hl
    · rcases List.mem_cons.mp hl with rfl | hm
      · simp
      · exact ih hm
    · rename_i hne
      rcases hsplit : splitOnChar sep cs with _ | ⟨l0, ls0⟩
      · exact absurd hsplit (splitOnChar_ne_nil sep cs)
      · rw [hsplit] at hl
        rcases List.mem_cons.mp hl with rfl | hm
        · intro hmem
          rcases List.mem_cons.mp hmem with rfl | hmem0
          · exact hne rfl
          · exact ih (hsplit ▸ List.mem_cons_self l0 ls0) hmem0
        · exact ih (hsplit ▸ List.mem_cons_of_mem l0 hm)

theorem splitOnChar_no_sep {sep : Char} {l : List Char} (h : sep ∉ l) :
    splitOnChar sep l = [l] := by
  induction l with
  | nil => rfl
  | cons c cs ih =>
    simp only [List.mem_cons, not_or] at h
    simp only [splitOnChar, if_neg (Ne.symm h.1), ih h.2]

theorem splitOnChar_append_sep {sep : Char} {l rest : List Char} (h : sep ∉ l) :
    splitOnChar sep (l ++ sep :: rest) = l :: splitOnChar sep rest := by
  induction l with
  | nil => simp [splitOnChar]
  | cons c cs ih =>
    simp only [List.mem_cons, not_or] at h
    simp only [List.cons_append, splitOnChar, if_neg (Ne.symm h.1)]
    rw [show cs.append (sep :: rest) = cs ++ sep :: rest from rfl, ih h.2]

theorem splitOnChar_joinNL {ls : List (List Char)} (hne : ls ≠ [])
    (hl : ∀ l ∈ ls, '\n' ∉ l) :
    splitOnChar '\n' (joinNL ls) = ls := by
  induction ls with
  | nil => exact absurd rfl hne
  | cons l ls ih =>
    cases ls with
    | nil =>
      simp only [joinNL]
      exact splitOnChar_no_sep (hl l (List.mem_cons_self l []))
    | cons l2 ls2 =>
      have h1 : joinNL (l :: l2 :: ls2) = l ++ '\n' :: joinNL (l2 :: ls2) := rfl
      rw [h1, splitOnChar_append_sep (hl l (List.mem_cons_self _ _)),
        ih (by simp) (fun x hx => hl x (List.mem_cons_of_mem l hx))]

theorem mem_stripLines {b : Bool} {ls : List (List Char)} {l : List Char}
    (h : l ∈ stripLines b ls) : l ∈ ls := by
  induction ls generalizing b with
  | nil => cases b <;> simp [stripLines] at h
  | cons l0 ls0 ih =>
    cases b with
    | true =>
      simp only [stripLines] at h
      split at h
      · exact List.mem_cons_of_mem l0 (ih h)
      · exact List.mem_cons_of_mem l0 (ih h)
    | false =>
      simp only [stripLines] at h
      split at h
      · exact List.mem_cons_of_mem l0 (ih h)
      · split at h
        · rcases List.mem_cons.mp h with rfl | hm
          · exact List.mem_cons_self _ _
          · exact List.mem_cons_of_mem l0 (ih hm)
        · exact List.mem_cons_of_mem l0 (ih h)

theorem stripLines_kept_clean {b : Bool} {ls : List (List Char)} {l : List Char}
    (h : l ∈ stripLines b ls) : substr COMMENT_INDICATOR l = false := by
  induction ls generalizing b with
  | nil => cases b <;> simp [stripLines] at h
  | cons l0 ls0 ih =>
    cases b with
    | true =>
      simp only [stripLines] at h
      split at h
      · exact ih h
      · exact ih h
    | false =>
      simp only [stripLines] at h
      split at h
      · exact ih h
      · split at h
        · rename_i hclean
          rcases List.mem_cons.mp h with rfl | hm
          · exact hclean
          · exact ih hm
        · exact ih h

theorem stripLines_of_clean {ls : List (List Char)}
    (h : ∀ l ∈ ls, substr COMMENT_INDICATOR l = false) :
    stripLines false ls = ls := by
  induction ls with
  | nil => rfl
  | cons l0 ls0 ih =>
    have hclean := h l0 (List.mem_cons_self _ _)
    have hnb : substr COMMENT_BEGIN_INDICATOR l0 = false := by
      by_contra hb
      rw [Bool.not_eq_false] at hb
      have : substr COMMENT_INDICATOR l0 = true :=
        substr_trans (by decide) hb
      rw [this] at hclean
      exact Bool.noConfusion hclean
    have ht := ih (fun x hx => h x (List.mem_cons_of_mem l0 hx))
    simp only [stripLines, hnb, hclean, Bool.false_eq_true, if_false, ht]
    simp

/-- C8: `strip_comments` is idempotent: applying it to its own output
returns that output unchanged, for every input text. -/
theorem strip_comments_idempotent (raw : List Char) :
    strip_comments (strip_comments raw) = strip_comments raw := by
  unfold strip_comments
  set kept := stripLines false (splitOnChar '\n' raw) with hkept
  rcases hk : kept with _ | ⟨l0, ls0⟩
  · rfl
  · rw [← hk]
    have hnl : ∀ l ∈ kept, '\n' ∉ l := fun l hl =>
      mem_splitOnChar_no_sep (mem_stripLines hl)
    have hcl : ∀ l ∈ kept, substr COMMENT_INDICATOR l = false := fun l hl =>
      stripLines_kept_clean hl
    rw [splitOnChar_joinNL (by rw [hk]; simp) hnl, stripLines_of_clean hcl]

/-! ## Claim C1: the comment-block markers

The source's own comment (lines 203-204) says the loop removes lines
between a `COMMENT_BEGIN_INDICATOR` and the next `COMMENT_END_INDICATOR`.
The begin test, however, is `COMMENT_BEGIN_INDICATOR in line`, i.e.
substring containment of the raw pattern string `'^!!! BEGIN COMMENT'`,
caret included, so a marker line `!!! BEGIN COMMENT` never starts a
block; the lines inside the would-be block are kept. -/

/-- C1: evaluation at the failing input.  The code keeps the line
`hello` that lies between the two comment markers, while the claim says
every line of the block is dropped (expected output `a\nb`). -/
theorem strip_comments_block_marker_not_matched :
    strip_comments (str "a\n!!! BEGIN COMMENT\nhello\n!!! END COMMENT\nb")
      = str "a\nhello\nb" ∧
    str "a\nhello\nb" ≠ str "a\nb" := by
  exact ⟨by decide, by decide⟩

/-! ## Data model

`SessionType` is the enum from the source.  `MSession` models the
attributes of a `Session` object (`Session.__init__` plus the attributes
the Calendar Walker assigns later); `None`-able Python attributes are
`Option`s.  Dates are proleptic-Gregorian ordinals (`Nat`), exactly
Python's `date.toordinal`; `date.isoweekday()` becomes `isoweekday`. -/

inductive SessionType where
  | REGULAR
  | NO_CLASS
  | EVENING_EXAM
  | IN_CLASS_EXAM
  | PROJECT
  | OTHER
deriving DecidableEq

structure MSession where
  datetime_date : Option Nat
  title : Option (List Char)
  session_number : Option Nat
  topics : Option (List Char)
  session_type : Option SessionType
  message : Option (List Char)
deriving DecidableEq

/-- `ScheduleDate`: a date together with an optional message.  (Its
`__eq__` against a plain `datetime.date` compares the date only; list
membership and `list.index` in the walker use that comparison.) -/
structure SchedDate where
  date : Nat
  message : Option (List Char)
deriving DecidableEq

/-- `TermInfo`: the term-configuration record.  The two file-name fields
are omitted (file I/O is modelled by passing the raw text in and the
output text out). -/
structure TermCfg where
  start_date : Nat
  end_date : Nat
  days_of_week : List Nat
  weekdays_of_week : List (List Char)
  dates_to_skip : List SchedDate
  evening_exams : List SchedDate
  start_session_number : Nat
  number_of_sessions : Nat
deriving DecidableEq

/-- `date.isoweekday()` from the ordinal: ordinal 1 (0001-01-01) is a
Monday (isoweekday 1). -/
def isoweekday (ordinal : Nat) : Nat := (ordinal + 6) % 7 + 1

/-- `ClassSession.__init__` (via `split_into_sessions`): only title and
topics are set; `find_session_type` returns `None`, and
`Session.__init__` leaves date, number and message unset. -/
def mkClassSession (title topics : List Char) : MSession :=
  { datetime_date := none, title := some title, session_number := none,
    topics := some topics, session_type := none, message := none }

/-- `NoClassSession.__init__`: the schedule date's message is passed as
the `title` argument of `Session.__init__`; the session type is
`NO_CLASS`; the other attributes stay unset. -/
def noClassSession (sd : SchedDate) : MSession :=
  { datetime_date := some sd.date, title := sd.message, session_number := none,
    topics := none, session_type := some SessionType.NO_CLASS, message := none }

/-! ## Session Splitter (ScheduleMaker.split_into_sessions)

`SESSION_INDICATOR = r'^.*Session[ ]*[0-9]*:'` with `re.MULTILINE`.
Since `.` does not match a newline, each regex match lies inside one
line, starts at the line start (`^`), and — because `.*` is greedy —
runs through the rightmost position of the line where
`Session[ ]*[0-9]*:` can complete.  After the colon no further `^` can
match inside the same line, so each line hosts at most one match, and
`re.split` cuts the text at the line start and resumes after the
colon. -/

/-- Match `Session[ ]*[0-9]*:` at the start of `s`; on success return
the text after the colon.  (Maximal munch on the spaces and digits is
complete here: a shorter take leaves a space or a digit where `:` is
required.) -/
def sessionTail (s : List Char) : Option (List Char) :=
  if (str "Session").isPrefixOf s then
    match (s.drop 7 |>.dropWhile (· = ' ')).dropWhile (·.isDigit) with
    | ':' :: r => some r
    | _ => none
  else none

/-- The rightmost position of the line where the session pattern
matches (greedy `.*`), as the text after the matched colon. -/
def lastSessionMatch : List Char → Option (List Char)
  | [] => none
  | c :: cs =>
    match lastSessionMatch cs with
    | some r => some r
    | none => sessionTail (c :: cs)

/-- Line-by-line worker for `re.split(SESSION_INDICATOR, data, MULTILINE)`:
`cur` holds the lines of the current piece in reverse order; a matched
line ends the current piece at the line start (hence the extra empty
line, which re-joins as the trailing newline) and starts the next piece
with the text after the colon. -/
def splitSessAux : List (List Char) → List (List Char) → List (List (List Char))
  | [], cur => [cur.reverse]
  | l :: ls, cur =>
    match lastSessionMatch l with
    | some r => (([] : List Char) :: cur).reverse :: splitSessAux ls [r]
    | none => splitSessAux ls (l :: cur)

/-- `re.split(SESSION_INDICATOR, data, flags=re.MULTILINE)`. -/
def reSplitSessions (text : List Char) : List (List Char) :=
  (splitSessAux (splitOnChar '\n' text) []).map joinNL

/-- The per-chunk step of `split_into_sessions`: the first line is the
title, the re-joined remainder is the topics body. -/
def fragToSession (frag : List Char) : MSession :=
  mkClassSession ((splitOnChar '\n' frag).headD []) (joinNL ((splitOnChar '\n' frag).drop 1))

/-- The fixed text of the `AssertionError` raised on a count mismatch. -/
def mismatchMsg : List Char := str "Number of topics != number of sessions"

/-- `ScheduleMaker.split_into_sessions`: strip comments, split on the
session indicator, drop the first piece, check the count against
`number_of_sessions` (raising `AssertionError` with a fixed message on
mismatch), and build the `ClassSession` objects. -/
def split_into_sessions (raw : List Char) (number_of_sessions : Nat) :
    Except (List Char) (List MSession) :=
  let topics_by_session := (reSplitSessions (strip_comments raw)).drop 1
  if topics_by_session.length = number_of_sessions then
    Except.ok (topics_by_session.map fragToSession)
  else
    Except.error mismatchMsg

/-! ## Calendar Walker (ScheduleMaker.add_dates_numbers_and_NoClassSessions)

The Python loop walks `date` from `start_date` to `end_date` one day at
a time, mutating `self.sessions` (inserting `NoClassSession`s, and
assigning date / session number / exam metadata to existing sessions in
place).  `date in list` and `list.index(date)` for lists of
`ScheduleDate` compare the date component only (`ScheduleDate.__eq__`
falls back to `self.datetime_date == date`), i.e. they find the first
entry with the same date.  Indexing `self.sessions[session_index]` out
of range raises `IndexError`, modelled by `none`. -/

/-- First entry of a `ScheduleDate` list whose date equals `d`
(`list.index` + indexing, as used in the walker). -/
def findSched (l : List SchedDate) (d : Nat) : Option SchedDate :=
  l.find? (fun sd => sd.date == d)

/-- Python `list.insert(i, x)` (clamps `i` to the list length). -/
def pyInsert (i : Nat) (x : α) (l : List α) : List α :=
  l.take i ++ x :: l.drop i

/-- Does this date fall on one of the configured class days-of-week? -/
def meets (ti : TermCfg) (d : Nat) : Bool :=
  ti.days_of_week.contains (isoweekday d)

/-- The loop state: the session list plus the `session_number` and
`session_index` counters. -/
structure WalkSt where
  sessions : List MSession
  session_number : Nat
  session_index : Nat
deriving DecidableEq

/-- The `else` branch of the walker: assign date and session number to
the session, then exam metadata if the date is an evening-exam date. -/
def assignSession (ti : TermCfg) (d : Nat) (num : Nat) (s : MSession) : MSession :=
  let s1 := { s with datetime_date := some d, session_number := some num }
  match findSched ti.evening_exams d with
  | some ex => { s1 with session_type := some SessionType.EVENING_EXAM,
                         message := ex.message }
  | none => s1

/-- One calendar day of the walk. -/
def walkStep (ti : TermCfg) (d : Nat) (st : WalkSt) : Option WalkSt :=
  if meets ti d then
    match findSched ti.dates_to_skip d with
    | some sd =>
      some ⟨pyInsert st.session_index (noClassSession sd) st.sessions,
            st.session_number, st.session_index + 1⟩
    | none =>
      match st.sessions[st.session_index]? with
      | none => none
      | some s =>
        some ⟨st.sessions.set st.session_index
                (assignSession ti d st.session_number s),
              st.session_number + 1, st.session_index + 1⟩
  else some st

/-- The walk over a list of consecutive dates. -/
def walkDates (ti : TermCfg) : List Nat → WalkSt → Option WalkSt
  | [], st => some st
  | d :: ds, st =>
    match walkStep ti d st with
    | none => none
    | some st' => walkDates ti ds st'

/-- All dates of the term, `start_date` to `end_date` inclusive. -/
def termDates (ti : TermCfg) : List Nat :=
  List.range' ti.start_date (ti.end_date + 1 - ti.start_date)

/-- The term dates that fall on configured class days-of-week. -/
def meetDates (ti : TermCfg) : List Nat :=
  (termDates ti).filter (meets ti)

/-- How many of the given dates are not skip dates (each consumes one
pending session and one session number). -/
def nonSkipCount (ti : TermCfg) (ds : List Nat) : Nat :=
  (ds.filter (fun d => (findSched ti.dates_to_skip d).isNone)).length

/-- `ScheduleMaker.add_dates_numbers_and_NoClassSessions`, as a function
from the session list to the updated session list (`none` = the Python
run raises `IndexError`). -/
def add_dates_numbers_and_NoClassSessions (ti : TermCfg)
    (sessions : List MSession) : Option (List MSession) :=
  (walkDates ti (termDates ti) ⟨sessions, ti.start_session_number, 0⟩).map
    (fun st => st.sessions)

/-- Specification function for the walk: the session list it produces
for a given list of meeting dates, numbering base and pending tail. -/
def buildSessions (ti : TermCfg) : List Nat → Nat → List MSession → List MSession
  | [], _, rest => rest
  | d :: ds, num, rest =>
    match findSched ti.dates_to_skip d with
    | some sd => noClassSession sd :: buildSessions ti ds num rest
    | none =>
      match rest with
      | [] => []
      | r :: rs => assignSession ti d num r :: buildSessions ti ds (num + 1) rs

/-! ## The walk computes `buildSessions` -/

theorem set_append_cons {α : Type} (done : List α) (r v : α) (rs : List α) :
    (done ++ r :: rs).set done.length v = done ++ v :: rs := by
  induction done with
  | nil => rfl
  | cons a l ih => simp [ih]

theorem pyInsert_append (done rest : List MSession) (x : MSession) :
    pyInsert done.length x (done ++ rest) = done ++ x :: rest := by
  unfold pyInsert
  rw [List.take_left, List.drop_left]

theorem getElem?_append_cons {α : Type} (done : List α) (r : α) (rs : List α) :
    (done ++ r :: rs)[done.length]? = some r := by
  rw [List.getElem?_append_right (le_refl _)]
  simp

theorem nonSkipCount_cons (ti : TermCfg) (d : Nat) (ds : List Nat) :
    nonSkipCount ti (d :: ds) =
      (if (findSched ti.dates_to_skip d).isNone then 1 else 0)
        + nonSkipCount ti ds := by
  unfold nonSkipCount
  rw [List.filter_cons]
  split <;> simp [Nat.add_comm]

theorem buildSessions_skip {ti : TermCfg} {d : Nat} {sd : SchedDate}
    (ds : List Nat) (num : Nat) (rest : List MSession)
    (hsk : findSched ti.dates_to_skip d = some sd) :
    buildSessions ti (d :: ds) num rest
      = noClassSession sd :: buildSessions ti ds num rest := by
  simp only [buildSessions, hsk]

theorem buildSessions_assign {ti : TermCfg} {d : Nat}
    (ds : List Nat) (num : Nat) (r : MSession) (rs : List MSession)
    (hsk : findSched ti.dates_to_skip d = none) :
    buildSessions ti (d :: ds) num (r :: rs)
      = assignSession ti d num r :: buildSessions ti ds (num + 1) rs := by
  simp only [buildSessions, hsk]

theorem walkDates_spec (ti : TermCfg) (D : List Nat) :
    ∀ (done rest : List MSession) (num : Nat),
      nonSkipCount ti (D.filter (meets ti)) ≤ rest.length →
      walkDates ti D ⟨done ++ rest, num, done.length⟩
        = some ⟨done ++ buildSessions ti (D.filter (meets ti)) num rest,
                num + nonSkipCount ti (D.filter (meets ti)),
                done.length + (D.filter (meets ti)).length⟩ := by
  induction D with
  | nil =>
    intro done rest num _
    simp [walkDates, buildSessions, nonSkipCount]
  | cons d ds ih =>
    intro done rest num h
    by_cases hm : meets ti d = true
    · rw [List.filter_cons_of_pos hm] at h ⊢
      cases hsk : findSched ti.dates_to_skip d with
      | some sd =>
        have hc : nonSkipCount ti (d :: ds.filter (meets ti))
            = nonSkipCount ti (ds.filter (meets ti)) := by
          rw [nonSkipCount_cons, hsk]
          simp [Option.isNone]
        rw [hc] at h
        have hstep : walkDates ti (d :: ds) ⟨done ++ rest, num, done.length⟩
            = walkDates ti ds ⟨(done ++ [noClassSession sd]) ++ rest, num,
                               (done ++ [noClassSession sd]).length⟩ := by
          simp only [walkDates, walkStep, if_pos hm, hsk, pyInsert_append]
          simp
        rw [hstep, ih _ _ _ h, buildSessions_skip _ _ _ hsk, hc]
        simp only [Option.some.injEq, WalkSt.mk.injEq, List.append_assoc,
          List.singleton_append, List.length_append, List.length_cons,
          List.length_nil]
        refine ⟨by trivial, by trivial, by omega⟩
      | none =>
        have hc : nonSkipCount ti (d :: ds.filter (meets ti))
            = nonSkipCount ti (ds.filter (meets ti)) + 1 := by
          rw [nonSkipCount_cons, hsk]
          simp [Option.isNone, Nat.add_comm]
        rw [hc] at h
        cases rest with
        | nil => simp at h
        | cons r rs =>
          have hrs : nonSkipCount ti (ds.filter (meets ti)) ≤ rs.length := by
            simp at h
            omega
          have hstep : walkDates ti (d :: ds) ⟨done ++ r :: rs, num, done.length⟩
              = walkDates ti ds
                  ⟨(done ++ [assignSession ti d num r]) ++ rs, num + 1,
                   (done ++ [assignSession ti d num r]).length⟩ := by
            simp only [walkDates, walkStep, if_pos hm, hsk,
              getElem?_append_cons, set_append_cons]
            simp
          rw [hstep, ih _ _ _ hrs, buildSessions_assign _ _ _ _ hsk, hc]
          simp only [Option.some.injEq, WalkSt.mk.injEq, List.append_assoc,
            List.singleton_append, List.length_append, List.length_cons,
            List.length_nil]
          refine ⟨by trivial, by omega, by omega⟩
    · rw [List.filter_cons_of_neg hm] at h ⊢
      have hstep : walkDates ti (d :: ds) ⟨done ++ rest, num, done.length⟩
          = walkDates ti ds ⟨done ++ rest, num, done.length⟩ := by
        simp only [walkDates, walkStep, if_neg hm]
      rw [hstep, ih _ _ _ h]

/-! ## Properties of the built session list -/

theorem assignSession_date (ti : TermCfg) (d num : Nat) (r : MSession) :
    (assignSession ti d num r).datetime_date = some d := by
  unfold assignSession
  cases findSched ti.evening_exams d <;> rfl

theorem assignSession_number (ti : TermCfg) (d num : Nat) (r : MSession) :
    (assignSession ti d num r).session_number = some num := by
  unfold assignSession
  cases findSched ti.evening_exams d <;> rfl

theorem assignSession_type (ti : TermCfg) (d num : Nat) (r : MSession) :
    (assignSession ti d num r).session_type = some SessionType.EVENING_EXAM
      ∨ (assignSession ti d num r).session_type = r.session_type := by
  unfold assignSession
  cases findSched ti.evening_exams d
  · right; rfl
  · left; rfl

theorem findSched_date {l : List SchedDate} {d : Nat} {sd : SchedDate}
    (h : findSched l d = some sd) : sd.date = d := by
  have := List.find?_some h
  simpa using this

theorem buildSessions_countP_date_zero (ti : TermCfg) {d : Nat} :
    ∀ (ds : List Nat) (num : Nat) (rest : List MSession),
      d ∉ ds → (∀ s ∈ rest, s.datetime_date = none) →
      (buildSessions ti ds num rest).countP
        (fun s => s.datetime_date == some d) = 0 := by
  intro ds
  induction ds with
  | nil =>
    intro num rest _ hrest
    rw [List.countP_eq_zero]
    intro s hs
    simp [hrest s hs]
  | cons d0 ds ih =>
    intro num rest hd hrest
    simp only [List.mem_cons, not_or] at hd
    cases hsk : findSched ti.dates_to_skip d0 with
    | some sd =>
      rw [buildSessions_skip _ _ _ hsk, List.countP_cons]
      have hdate : (noClassSession sd).datetime_date = some sd.date := rfl
      rw [ih num rest hd.2 hrest]
      simp [noClassSession, findSched_date hsk, Ne.symm hd.1]
    | none =>
      cases rest with
      | nil =>
        rw [buildSessions.eq_def]
        simp only [hsk]
        rfl
      | cons r rs =>
        rw [buildSessions_assign _ _ _ _ hsk, List.countP_cons,
          ih (num + 1) rs hd.2 (fun s hs => hrest s (List.mem_cons_of_mem r hs))]
        simp [assignSession_date, Ne.symm hd.1]

theorem buildSessions_countP_date_one (ti : TermCfg) {d : Nat} :
    ∀ (ds : List Nat) (num : Nat) (rest : List MSession),
      ds.Nodup → d ∈ ds → nonSkipCount ti ds ≤ rest.length →
      (∀ s ∈ rest, s.datetime_date = none) →
      (buildSessions ti ds num rest).countP
        (fun s => s.datetime_date == some d) = 1 := by
  intro ds
  induction ds with
  | nil =>
    intro num rest _ hmem
    simp at hmem
  | cons d0 ds ih =>
    intro num rest hnd hmem hlen hrest
    rw [List.nodup_cons] at hnd
    cases hsk : findSched ti.dates_to_skip d0 with
    | some sd =>
      have hlen' : nonSkipCount ti ds ≤ rest.length := by
        rw [nonSkipCount_cons, hsk] at hlen
        simpa using hlen
      rw [buildSessions_skip _ _ _ hsk, List.countP_cons]
      rcases List.mem_cons.mp hmem with rfl | hm
      · rw [buildSessions_countP_date_zero ti ds num rest hnd.1 hrest]
        simp [noClassSession, findSched_date hsk]
      · rw [ih num rest hnd.2 hm hlen' hrest]
        have hne : d0 ≠ d := fun he => hnd.1 (he ▸ hm)
        simp [noClassSession, findSched_date hsk, hne]
    | none =>
      have hlen1 : nonSkipCount ti ds + 1 ≤ rest.length := by
        rw [nonSkipCount_cons, hsk] at hlen
        simpa [Nat.add_comm] using hlen
      cases rest with
      | nil => simp at hlen1
      | cons r rs =>
        have hrs : ∀ s ∈ rs, s.datetime_date = none :=
          fun s hs => hrest s (List.mem_cons_of_mem r hs)
        rw [buildSessions_assign _ _ _ _ hsk, List.countP_cons]
        rcases List.mem_cons.mp hmem with rfl | hm
        · rw [buildSessions_countP_date_zero ti ds (num + 1) rs hnd.1 hrs]
          simp [assignSession_date]
        · have hlen' : nonSkipCount ti ds ≤ rs.length := by
            simp at hlen1
            omega
          rw [ih (num + 1) rs hnd.2 hm hlen' hrs]
          have hne : d0 ≠ d := fun he => hnd.1 (he ▸ hm)
          simp [assignSession_date, hne]

theorem buildSessions_numbers (ti : TermCfg) :
    ∀ (ds : List Nat) (num : Nat) (rest : List MSession),
      nonSkipCount ti ds ≤ rest.length →
      (∀ s ∈ rest, s.session_number = none) →
      (buildSessions ti ds num rest).filterMap (fun s => s.session_number)
        = List.range' num (nonSkipCount ti ds) := by
  intro ds
  induction ds with
  | nil =>
    intro num rest _ hrest
    have : nonSkipCount ti ([] : List Nat) = 0 := rfl
    rw [this]
    simp only [buildSessions, List.range']
    rw [List.filterMap_eq_nil_iff]
    exact hrest
  | cons d0 ds ih =>
    intro num rest hlen hrest
    cases hsk : findSched ti.dates_to_skip d0 with
    | some sd =>
      have hc : nonSkipCount ti (d0 :: ds) = nonSkipCount ti ds := by
        rw [nonSkipCount_cons, hsk]; simp [Option.isNone]
      rw [hc] at hlen ⊢
      rw [buildSessions_skip _ _ _ hsk, List.filterMap_cons]
      have : (noClassSession sd).session_number = none := rfl
      rw [this, ih num rest hlen hrest]
    | none =>
      have hc : nonSkipCount ti (d0 :: ds) = nonSkipCount ti ds + 1 := by
        rw [nonSkipCount_cons, hsk]; simp [Option.isNone, Nat.add_comm]
      rw [hc] at hlen ⊢
      cases rest with
      | nil => simp at hlen
      | cons r rs =>
        have hlen' : nonSkipCount ti ds ≤ rs.length := by simp at hlen; omega
        have hrs : ∀ s ∈ rs, s.session_number = none :=
          fun s hs => hrest s (List.mem_cons_of_mem r hs)
        rw [buildSessions_assign _ _ _ _ hsk, List.filterMap_cons,
          assignSession_number, ih (num + 1) rs hlen' hrs, List.range'_succ]

theorem buildSessions_noclass_number (ti : TermCfg) :
    ∀ (ds : List Nat) (num : Nat) (rest : List MSession),
      (∀ s ∈ rest, s.session_type = none) →
      ∀ s ∈ buildSessions ti ds num rest,
        s.session_type = some SessionType.NO_CLASS → s.session_number = none := by
  intro ds
  induction ds with
  | nil =>
    intro num rest hrest s hs htyp
    exact absurd ((hrest s hs) ▸ htyp) (by simp)
  | cons d0 ds ih =>
    intro num rest hrest s hs htyp
    cases hsk : findSched ti.dates_to_skip d0 with
    | some sd =>
      rw [buildSessions_skip _ _ _ hsk] at hs
      rcases List.mem_cons.mp hs with rfl | hm
      · rfl
      · exact ih num rest hrest s hm htyp
    | none =>
      cases rest with
      | nil =>
        rw [buildSessions.eq_def] at hs
        simp only [hsk] at hs
        simp at hs
      | cons r rs =>
        rw [buildSessions_assign _ _ _ _ hsk] at hs
        rcases List.mem_cons.mp hs with rfl | hm
        · rcases assignSession_type ti d0 num r with h | h
          · rw [htyp] at h
            exact absurd h (by simp)
          · rw [htyp] at h
            have := hrest r (List.mem_cons_self r rs)
            rw [this] at h
            exact absurd h (by simp)
        · exact ih (num + 1) rs
            (fun x hx => hrest x (List.mem_cons_of_mem r hx)) s hm htyp

theorem buildSessions_skip_date (ti : TermCfg) {d : Nat}
    (hsk : (findSched ti.dates_to_skip d).isSome = true) :
    ∀ (ds : List Nat) (num : Nat) (rest : List MSession),
      (∀ s ∈ rest, s.datetime_date = none) →
      ∀ s ∈ buildSessions ti ds num rest, s.datetime_date = some d →
        s.session_type = some SessionType.NO_CLASS ∧ s.message = none := by
  intro ds
  induction ds with
  | nil =>
    intro num rest hrest s hs hdate
    rw [hrest s hs] at hdate
    exact absurd hdate (by simp)
  | cons d0 ds ih =>
    intro num rest hrest s hs hdate
    cases hsk0 : findSched ti.dates_to_skip d0 with
    | some sd =>
      rw [buildSessions_skip _ _ _ hsk0] at hs
      rcases List.mem_cons.mp hs with rfl | hm
      · exact ⟨rfl, rfl⟩
      · exact ih num rest hrest s hm hdate
    | none =>
      cases rest with
      | nil =>
        rw [buildSessions.eq_def] at hs
        simp only [hsk0] at hs
        simp at hs
      | cons r rs =>
        rw [buildSessions_assign _ _ _ _ hsk0] at hs
        rcases List.mem_cons.mp hs with rfl | hm
        · rw [assignSession_date] at hdate
          have hd0 : d0 = d := Option.some.inj hdate
          rw [hd0] at hsk0
          rw [hsk0] at hsk
          exact absurd hsk (by simp)
        · exact ih (num + 1) rs
            (fun x hx => hrest x (List.mem_cons_of_mem r hx)) s hm hdate

/-! ## Claim-level theorems about the Calendar Walker -/

theorem add_dates_eq (ti : TermCfg) (sessions : List MSession)
    (H : nonSkipCount ti (meetDates ti) ≤ sessions.length) :
    add_dates_numbers_and_NoClassSessions ti sessions
      = some (buildSessions ti (meetDates ti) ti.start_session_number sessions) := by
  unfold add_dates_numbers_and_NoClassSessions
  have hspec := walkDates_spec ti (termDates ti) [] sessions ti.start_session_number H
  simp only [List.nil_append, List.length_nil] at hspec
  rw [hspec]
  rfl

theorem mem_meetDates {ti : TermCfg} {d : Nat} :
    d ∈ meetDates ti
      ↔ (ti.start_date ≤ d ∧ d ≤ ti.end_date ∧ meets ti d = true) := by
  unfold meetDates termDates
  rw [List.mem_filter, List.mem_range'_1]
  constructor
  · rintro ⟨⟨h1, h2⟩, h3⟩
    exact ⟨h1, by omega, h3⟩
  · rintro ⟨h1, h2, h3⟩
    exact ⟨⟨h1, by omega⟩, h3⟩

theorem meetDates_nodup (ti : TermCfg) : (meetDates ti).Nodup :=
  (List.nodup_range' _ _).filter _

theorem nonSkipCount_le_of_claim_bound {ti : TermCfg} {sessions : List MSession}
    (H : (meetDates ti).length
          ≤ sessions.length
            + (meetDates ti).countP (fun d => (findSched ti.dates_to_skip d).isSome)) :
    nonSkipCount ti (meetDates ti) ≤ sessions.length := by
  have h1 : nonSkipCount ti (meetDates ti)
      = (meetDates ti).countP (fun d => (findSched ti.dates_to_skip d).isNone) := by
    unfold nonSkipCount
    rw [List.countP_eq_length_filter]
  have h2 := List.length_eq_countP_add_countP
    (fun d => (findSched ti.dates_to_skip d).isSome) (l := meetDates ti)
  have h3 : (meetDates ti).countP
        (fun d => decide ¬((findSched ti.dates_to_skip d).isSome = true))
      = (meetDates ti).countP (fun d => (findSched ti.dates_to_skip d).isNone) := by
    apply List.countP_congr
    intro d _
    cases hfs : findSched ti.dates_to_skip d <;> simp
  omega

/-- C3: if the meeting-weekday dates of the term do not outnumber the
parsed sessions plus the skip insertions, the walk succeeds and, in the
resulting session list, every date `d` in `[start_date, end_date]`
whose isoweekday is a configured meeting day is the date of exactly one
session, and no other date is the date of any session.  The sessions
fed to the walker are the parsed ones, whose dates are still unset. -/
theorem calendar_walk_unique_date_assignment (ti : TermCfg)
    (sessions : List MSession)
    (hdates : ∀ s ∈ sessions, s.datetime_date = none)
    (H : (meetDates ti).length
          ≤ sessions.length
            + (meetDates ti).countP (fun d => (findSched ti.dates_to_skip d).isSome)) :
    ∃ out, add_dates_numbers_and_NoClassSessions ti sessions = some out
      ∧ (∀ d, ti.start_date ≤ d → d ≤ ti.end_date → meets ti d = true →
           out.countP (fun s => s.datetime_date == some d) = 1)
      ∧ (∀ d, ¬(ti.start_date ≤ d ∧ d ≤ ti.end_date ∧ meets ti d = true) →
           out.countP (fun s => s.datetime_date == some d) = 0) := by
  have H' := nonSkipCount_le_of_claim_bound H
  refine ⟨buildSessions ti (meetDates ti) ti.start_session_number sessions,
    add_dates_eq ti sessions H', ?_, ?_⟩
  · intro d h1 h2 h3
    exact buildSessions_countP_date_one ti (meetDates ti)
      ti.start_session_number sessions (meetDates_nodup ti)
      (mem_meetDates.mpr ⟨h1, h2, h3⟩) H' hdates
  · intro d hout
    exact buildSessions_countP_date_zero ti (meetDates ti)
      ti.start_session_number sessions
      (fun hmem => hout (mem_meetDates.mp hmem)) hdates

/-- C4: under the success condition of the walk, the session numbers
found in the output list (in order) are exactly the consecutive run
`start_session_number, start_session_number + 1, ...`, one per non-skip
meeting date — i.e. the walker numbers the regular sessions in calendar
order, one apart, and NoClassSessions carry no number and do not
advance the numbering. -/
theorem calendar_walk_session_numbering (ti : TermCfg)
    (sessions : List MSession)
    (hnum : ∀ s ∈ sessions, s.session_number = none)
    (htyp : ∀ s ∈ sessions, s.session_type = none)
    (H : nonSkipCount ti (meetDates ti) ≤ sessions.length) :
    ∃ out, add_dates_numbers_and_NoClassSessions ti sessions = some out
      ∧ out.filterMap (fun s => s.session_number)
          = List.range' ti.start_session_number (nonSkipCount ti (meetDates ti))
      ∧ ∀ s ∈ out, s.session_type = some SessionType.NO_CLASS →
          s.session_number = none := by
  refine ⟨buildSessions ti (meetDates ti) ti.start_session_number sessions,
    add_dates_eq ti sessions H, ?_, ?_⟩
  · exact buildSessions_numbers ti (meetDates ti) ti.start_session_number
      sessions H hnum
  · exact buildSessions_noclass_number ti (meetDates ti)
      ti.start_session_number sessions htyp

/-- C5: on a meeting-weekday date that matches a skip entry, the walker
step inserts a `NoClassSession` built from the first matching entry
(carrying that entry's message as its title) at the current position:
the list grows by exactly one, the inserted session carries the date
and the `NO_CLASS` tag, the session-number counter is unchanged, and
every pending session survives unchanged (the original list is a
sublist of the new one) — no pending RegularSession is consumed. -/
theorem walkStep_skip_inserts_noclass (ti : TermCfg) (d : Nat) (st : WalkSt)
    (sd : SchedDate)
    (hm : meets ti d = true)
    (hsk : findSched ti.dates_to_skip d = some sd) :
    walkStep ti d st
      = some ⟨pyInsert st.session_index (noClassSession sd) st.sessions,
              st.session_number, st.session_index + 1⟩
      ∧ (pyInsert st.session_index (noClassSession sd) st.sessions).length
          = st.sessions.length + 1
      ∧ (noClassSession sd).title = sd.message
      ∧ (noClassSession sd).session_type = some SessionType.NO_CLASS
      ∧ (noClassSession sd).datetime_date = some d
      ∧ st.sessions.Sublist
          (pyInsert st.session_index (noClassSession sd) st.sessions) := by
  refine ⟨?_, ?_, rfl, rfl, ?_, ?_⟩
  · simp only [walkStep, if_pos hm, hsk]
  · unfold pyInsert
    simp only [List.length_append, List.length_cons, List.length_take,
      List.length_drop]
    omega
  · rw [show (noClassSession sd).datetime_date = some sd.date from rfl,
      findSched_date hsk]
  · conv_lhs => rw [← List.take_append_drop st.session_index st.sessions]
    exact (List.sublist_cons_self _ _).append_left _

/-- C9: when a meeting-weekday date of the term is both a skip date and
an evening-exam date, the skip branch wins: after the walk, every
session dated on it is the inserted `NoClassSession` — tagged
`NO_CLASS`, not `EVENING_EXAM`, and with no exam message attached. -/
theorem skip_takes_precedence_over_exam (ti : TermCfg)
    (sessions : List MSession)
    (hdates : ∀ s ∈ sessions, s.datetime_date = none)
    (H : nonSkipCount ti (meetDates ti) ≤ sessions.length)
    (d : Nat) (_hd : d ∈ meetDates ti)
    (hskip : (findSched ti.dates_to_skip d).isSome = true)
    (_hexam : (findSched ti.evening_exams d).isSome = true) :
    ∃ out, add_dates_numbers_and_NoClassSessions ti sessions = some out
      ∧ ∀ s ∈ out, s.datetime_date = some d →
          s.session_type = some SessionType.NO_CLASS
            ∧ s.session_type ≠ some SessionType.EVENING_EXAM
            ∧ s.message = none := by
  refine ⟨buildSessions ti (meetDates ti) ti.start_session_number sessions,
    add_dates_eq ti sessions H, ?_⟩
  intro s hs hdate
  have h := buildSessions_skip_date ti hskip (meetDates ti)
    ti.start_session_number sessions hdates s hs hdate
  exact ⟨h.1, by rw [h.1]; simp, h.2⟩

/-! ## Concrete witness data for the Calendar-Walker theorems

A one-meeting-day-per-week term of eight days: the two meeting dates
are ordinal 1 and ordinal 8 (both Mondays); ordinal 8 is both a skip
date and an evening-exam date. -/

def wTerm : TermCfg :=
  { start_date := 1, end_date := 8, days_of_week := [1],
    weekdays_of_week := [str "Monday"],
    dates_to_skip := [⟨8, some (str "Fall break")⟩],
    evening_exams := [⟨8, some (str "exam details")⟩],
    start_session_number := 5, number_of_sessions := 1 }

def wSessions : List MSession := [mkClassSession (str "Intro") (str "topics")]

theorem calendar_walk_unique_date_assignment_witness :
    ((∀ s ∈ wSessions, s.datetime_date = none)
      ∧ (meetDates wTerm).length
          ≤ wSessions.length
            + (meetDates wTerm).countP
                (fun d => (findSched wTerm.dates_to_skip d).isSome))
      ∧ (∃ out, add_dates_numbers_and_NoClassSessions wTerm wSessions = some out
          ∧ (∀ d, wTerm.start_date ≤ d → d ≤ wTerm.end_date → meets wTerm d = true →
               out.countP (fun s => s.datetime_date == some d) = 1)
          ∧ (∀ d, ¬(wTerm.start_date ≤ d ∧ d ≤ wTerm.end_date ∧ meets wTerm d = true) →
               out.countP (fun s => s.datetime_date == some d) = 0)) :=
  ⟨⟨by decide, by decide⟩,
    calendar_walk_unique_date_assignment wTerm wSessions (by decide) (by decide)⟩

theorem calendar_walk_session_numbering_witness :
    ((∀ s ∈ wSessions, s.session_number = none)
      ∧ (∀ s ∈ wSessions, s.session_type = none)
      ∧ nonSkipCount wTerm (meetDates wTerm) ≤ wSessions.length)
      ∧ (∃ out, add_dates_numbers_and_NoClassSessions wTerm wSessions = some out
          ∧ out.filterMap (fun s => s.session_number)
              = List.range' wTerm.start_session_number
                  (nonSkipCount wTerm (meetDates wTerm))
          ∧ ∀ s ∈ out, s.session_type = some SessionType.NO_CLASS →
              s.session_number = none) :=
  ⟨⟨by decide, by decide, by decide⟩,
    calendar_walk_session_numbering wTerm wSessions (by decide) (by decide) (by decide)⟩

theorem walkStep_skip_inserts_noclass_witness :
    (meets wTerm 8 = true
      ∧ findSched wTerm.dates_to_skip 8 = some ⟨8, some (str "Fall break")⟩)
      ∧ (walkStep wTerm 8 ⟨wSessions, 5, 0⟩
          = some ⟨pyInsert 0 (noClassSession ⟨8, some (str "Fall break")⟩) wSessions,
                  5, 0 + 1⟩
        ∧ (pyInsert 0 (noClassSession ⟨8, some (str "Fall break")⟩) wSessions).length
            = wSessions.length + 1
        ∧ (noClassSession ⟨8, some (str "Fall break")⟩).title = some (str "Fall break")
        ∧ (noClassSession ⟨8, some (str "Fall break")⟩).session_type
            = some SessionType.NO_CLASS
        ∧ (noClassSession ⟨8, some (str "Fall break")⟩).datetime_date = some 8
        ∧ wSessions.Sublist
            (pyInsert 0 (noClassSession ⟨8, some (str "Fall break")⟩) wSessions)) :=
  ⟨⟨by decide, by decide⟩,
    walkStep_skip_inserts_noclass wTerm 8 ⟨wSessions, 5, 0⟩
      ⟨8, some (str "Fall break")⟩ (by decide) (by decide)⟩

theorem skip_takes_precedence_over_exam_witness :
    ((∀ s ∈ wSessions, s.datetime_date = none)
      ∧ nonSkipCount wTerm (meetDates wTerm) ≤ wSessions.length
      ∧ 8 ∈ meetDates wTerm
      ∧ (findSched wTerm.dates_to_skip 8).isSome = true
      ∧ (findSched wTerm.evening_exams 8).isSome = true)
      ∧ (∃ out, add_dates_numbers_and_NoClassSessions wTerm wSessions = some out
          ∧ ∀ s ∈ out, s.datetime_date = some 8 →
              s.session_type = some SessionType.NO_CLASS
                ∧ s.session_type ≠ some SessionType.EVENING_EXAM
                ∧ s.message = none) :=
  ⟨⟨by decide, by decide, by decide, by decide, by decide⟩,
    skip_takes_precedence_over_exam wTerm wSessions (by decide) (by decide) 8
      (by decide) (by decide) (by decide)⟩

/-! ## Date and number formatting

`date.toordinal` / its inverse, and the string conversions used by the
HTML renderer (`str(n)`, the `{:02}` format spec of `LINK_TO_PREP`, and
`strftime('%B')` + day for `Session.date_as_string`). -/

def digitChar (d : Nat) : Char := Char.ofNat (48 + d)

/-- Decimal digits of a natural number (`str(n)` for `n : Nat`). -/
def natToChars (n : Nat) : List Char :=
  if n < 10 then [digitChar n]
  else natToChars (n / 10) ++ [digitChar (n % 10)]
termination_by n
decreasing_by exact Nat.div_lt_self (by omega) (by omega)

/-- `'{:02}'.format(n)`: pad to width two with a leading zero. -/
def pad2 (n : Nat) : List Char :=
  if n < 10 then '0' :: natToChars n else natToChars n

def isLeapYear (y : Nat) : Bool := (y % 4 = 0 && y % 100 ≠ 0) || y % 400 = 0

def daysInMonth (y m : Nat) : Nat :=
  if m = 2 then (if isLeapYear y then 29 else 28)
  else if m = 4 ∨ m = 6 ∨ m = 9 ∨ m = 11 then 30
  else 31

def daysBeforeYear (y : Nat) : Nat :=
  (y - 1) * 365 + (y - 1) / 4 - (y - 1) / 100 + (y - 1) / 400

def daysBeforeMonth (y m : Nat) : Nat :=
  (List.range' 1 (m - 1)).foldl (fun acc mm => acc + daysInMonth y mm) 0

/-- `datetime.date(y, m, d).toordinal()`. -/
def toordinal (y m d : Nat) : Nat := daysBeforeYear y + daysBeforeMonth y m + d

/-- The inverse conversion, ordinal to `(year, month, day)` (standard
era-based civil-from-days computation). -/
def civilOfOrdinal (n : Nat) : Nat × Nat × Nat :=
  let z := n + 305
  let era := z / 146097
  let doe := z % 146097
  let yoe := (doe - doe / 1460 + doe / 36524 - doe / 146096) / 365
  let y := yoe + era * 400
  let doy := doe - (365 * yoe + yoe / 4 - yoe / 100)
  let mp := (5 * doy + 2) / 153
  let d := doy - (153 * mp + 2) / 5 + 1
  let m := if mp < 10 then mp + 3 else mp - 9
  (if m ≤ 2 then y + 1 else y, m, d)

def monthNames : List (List Char) :=
  [str "January", str "February", str "March", str "April", str "May",
   str "June", str "July", str "August", str "September", str "October",
   str "November", str "December"]

def monthName (m : Nat) : List Char := monthNames.getD (m - 1) []

/-- `Session.date_as_string`: `strftime('%B') + ' ' + str(day)`, e.g.
`August 28`. -/
def date_as_string (ordinal : Nat) : List Char :=
  monthName (civilOfOrdinal ordinal).2.1 ++ ' ' :: natToChars (civilOfOrdinal ordinal).2.2

/-! ## HTML Renderer

The string templates from the source, split at their `$`-substitution
points, and the per-session `make_html` methods.  The external Markdown
converter (`markdown.markdown`) is modelled as an explicit function
parameter `md`; every theorem below holds for an arbitrary converter.
`SHOW_TOPICS` is the module constant, shipped as `False`. -/

def SHOW_TOPICS : Bool := false

/-- `ClassSession.make_topics_html` executes `gfm.markdown(self.topics)`
where `gfm` is an undefined name (the module only imports `markdown`),
so any call raises `NameError`; the failure is modelled as `none`. -/
def make_topics_html (_s : MSession) : Option (List Char) := none

/-- Python `str.strip()` (used only under the `SHOW_TOPICS` flag). -/
def pystrip (s : List Char) : List Char :=
  ((s.dropWhile Char.isWhitespace).reverse.dropWhile Char.isWhitespace).reverse

/-- `ClassSession.LINK_TO_PREP.format(session_number)`. -/
def LINK_TO_PREP (n : Nat) : List Char :=
  str "<a href=\"Sessions/Session" ++ pad2 n ++ str "/index.html\">Preparation</a>"

/-- `ClassSession.SESSION_TEMPLATE`, split at its four substitutions. -/
def SESSION_T0 : List Char :=
  str "\n        <div class=session_identifier>\n          <span class=\"session_preparation\">"

def SESSION_T1 : List Char :=
  str "</span>\n          <span class=\"for_session\">for session</span>\n          <span class=\"session_number\">"

def SESSION_T2 : List Char :=
  str "</span>\n          <span class=\"session_date\">("

def SESSION_T3 : List Char :=
  str ")</span>\n        </div>\n        <div class=\"session_title\"> "

def SESSION_T4 : List Char := str " </div>\n        "

/-- `ClassSession.SESSION_TOPICS_TEMPLATE`, split at its substitution. -/
def TOPICS_T0 : List Char := str "\n        <div class=session_topics>"

def TOPICS_T1 : List Char := str "\n        </div>"

/-- `NoClassSession.NO_CLASS_TEMPLATE`, split at its substitutions. -/
def NO_CLASS_T0 : List Char := str "\n        <div class=\"no_class_title\">"

def NO_CLASS_T1 : List Char := str "</div>\n        <div class=\"session_date\">"

def NO_CLASS_T2 : List Char := str "</div>"

/-- `ClassSession.make_html`.  `none` models the Python exceptions: a
`None` session number (`format` raises `TypeError`), a `None` date
(`date_as_string` raises `AttributeError`), a `None` title
(`.replace` raises `AttributeError`), a `None` message on an
evening-exam session (`+=` raises `TypeError`), a `None` topics value
reached when `SHOW_TOPICS` is on (`.strip` raises `AttributeError`),
and the `NameError` inside `make_topics_html`. -/
def ClassSession_make_html (md : List Char → List Char) (s : MSession) :
    Option (List Char) :=
  match s.session_number, s.datetime_date, s.title with
  | some n, some date, some t =>
    let title := md (replaceAll (str "/") (str "<br>\n") t)
    let base := SESSION_T0 ++ LINK_TO_PREP n ++ SESSION_T1 ++ natToChars n
                  ++ SESSION_T2 ++ date_as_string date ++ SESSION_T3 ++ title
                  ++ SESSION_T4
    let withExam : Option (List Char) :=
      if s.session_type = some SessionType.EVENING_EXAM then
        match s.message with
        | none => none
        | some m => some (base ++ m)
      else some base
    match withExam with
    | none => none
    | some h =>
      if SHOW_TOPICS then
        match s.topics with
        | none => none
        | some tp =>
          if pystrip tp ≠ [] then
            match make_topics_html s with
            | none => none
            | some th => some (h ++ TOPICS_T0 ++ th ++ TOPICS_T1)
          else some h
      else some h
  | _, _, _ => none

/-- `NoClassSession.make_html` (a `None` title renders as the string
`None`, per `string.Template.substitute`; a missing date would raise,
modelled as `none`). -/
def NoClassSession_make_html (s : MSession) : Option (List Char) :=
  match s.datetime_date with
  | none => none
  | some date =>
    some (NO_CLASS_T0 ++ s.title.getD (str "None") ++ NO_CLASS_T1
            ++ date_as_string date ++ NO_CLASS_T2)

/-- The virtual `make_html` dispatch.  In Python it dispatches on the
object's class; in this pipeline the `NO_CLASS` session type holds for
exactly the `NoClassSession` instances (the only code that sets it is
`NoClassSession.__init__` — `find_session_type` returns `None`), so the
tag decides the dispatch. -/
def Session_make_html (md : List Char → List Char) (s : MSession) :
    Option (List Char) :=
  if s.session_type = some SessionType.NO_CLASS then NoClassSession_make_html s
  else ClassSession_make_html md s

/-- `ScheduleHeader.TH_FOR_DAY_OF_WEEK_TEMPLATE.substitute(DAY=day)`. -/
def TH_FOR_DAY (day : List Char) : List Char :=
  str "\n      <th class=schedule_caption> " ++ day ++ str " </th>"

/-- `ScheduleHeader.HEADER_TEMPLATE` up to `${THs_FOR_CLASSDAYS}`
(the backslash continuations of the Python literal join their lines). -/
def HEADER_PREFIX : List Char := str
"<!DOCTYPE HTML>
<html>
<head>
    <meta charset=\"UTF-8\">
    <link rel=\"stylesheet\" type=\"text/css\" href=\"http://fonts.googleapis.com/css?family=Open+Sans\">
    <link rel=\"stylesheet\" type=\"text/css\" href=\"styles/style.css\">
    <link rel=\"stylesheet\" type=\"text/css\" href=\"styles/navigation_bar.css\">
    <link rel=\"stylesheet\" type=\"text/css\" href=\"styles/home_page.css\">
    <link rel=\"stylesheet\" type=\"text/css\" href=\"styles/schedule_page.css\">

    <title> CSSE 120 Home Page </title>
</head>

<body>

<nav>
  <img src=\"../Images/girls_who_code2_90x60.png\" alt=\"Girls coding together\"/>
  <div>
    <p>
      <span class=\"course_number\"> CSSE 120</span>
      <br>
      <span class=\"course_title\">Introduction to Software Development</span>
      <br>
      <span class=\"course_term\">Fall term, 2017-18 (aka 201810)</span>
    </p>
  </div>
  <a href=\"Syllabus_CourseInformation/syllabus.html\">SYLLABUS</a>
  <a href=\"Resources/CSSE120_Setup\">SETUP</a>
  <a href=\"../Resources/Piazza\">PIAZZA (Q&A)</a>
  <a href=\"../Resources/Python\">PYTHON</a>
  <a href=\"../Resources/Graphics\">GRAPHICS</a>
  <a href=\"../Resources/Robotics\">ROBOTICS</a>
</nav>

<section class=\"course_schedule\">
<table>
  <caption>What to do, When</caption>
  <thead>
    <tr>"

/-- `ScheduleHeader.HEADER_TEMPLATE` after `${THs_FOR_CLASSDAYS}`. -/
def HEADER_SUFFIX : List Char := str "\n    </tr>\n  </thead>\n  <tbody>"

/-- `ScheduleHeader.__init__`: accumulate one `<th>` per configured
weekday name, then fill the header template. -/
def ScheduleHeader_html (weekdays_of_week : List (List Char)) : List Char :=
  HEADER_PREFIX
    ++ weekdays_of_week.foldl (fun acc day => acc ++ TH_FOR_DAY day) []
    ++ HEADER_SUFFIX

/-- `ScheduleTable` markup constants. -/
def ROW_START : List Char := str "\n    <tr>"

def ROW_END : List Char := str "\n    </tr>"

def ITEM_START : List Char := str "\n\n      <td>"

def ITEM_END : List Char := str "\n      </td>"

/-- `ScheduleTrailer.__init__`: `FINAL_EXAM + TRAILER`. -/
def ScheduleTrailer_html : List Char :=
  str "\n  </tbody>\n  <tfoot>\n    <tr>\n      <th colspan=3>\n    PROJECT DEMOs and FINAL EXAM during exam week, times TBD.\n     </th>\n     </tr>\n  </tfoot>"
    ++ str "\n</table>\n</section>\n</body>\n</html>"

/-- `ScheduleMaker.make_html_table`, given the per-session HTML in
order.  (`days_in_week = 0` would make the Python `%` raise
`ZeroDivisionError` as soon as a session exists; runs with a configured
meeting-day list never hit that.) -/
def make_html_table (ti : TermCfg) (session_htmls : List (List Char)) : List Char :=
  let days_in_week := ti.days_of_week.length
  let sessions_html := (List.range session_htmls.length).foldl
    (fun acc k =>
      (acc ++ (if k % days_in_week = 0 then ROW_START else [])
           ++ ITEM_START ++ session_htmls.getD k [] ++ ITEM_END)
        ++ (if k % days_in_week = days_in_week - 1 then ROW_END else []))
    []
  ScheduleHeader_html ti.weekdays_of_week ++ sessions_html ++ ScheduleTrailer_html

/-- `ScheduleMaker.make_schedule`: read (the raw text is the parameter),
split into sessions, walk the calendar, render each session, assemble
the table.  `Except.ok html` means `write_html` writes exactly `html`;
`Except.error` means the run aborted before `write_html`, so no output
file is produced. -/
def make_schedule (md : List Char → List Char) (raw : List Char) (ti : TermCfg) :
    Except (List Char) (List Char) :=
  match split_into_sessions raw ti.number_of_sessions with
  | Except.error e => Except.error e
  | Except.ok sessions =>
    match add_dates_numbers_and_NoClassSessions ti sessions with
    | none => Except.error (str "IndexError")
    | some sessions2 =>
      match sessions2.mapM (Session_make_html md) with
      | none => Except.error (str "TypeError")
      | some htmls => Except.ok (make_html_table ti htmls)

/-- The evening-exam notice of `TermInfo('201930')`
(`EVENING_EXAM_TEMPLATE` with both days `Thursday`). -/
def exam_msg_201930 : List Char := str
"\n      <div class=evening_exam>\n        <p>\n          The regular in-class session on Thursday\n          is an OPTIONAL review session.\n          The test itself is\n            <span class=exam_date_time>\n              Thursday\n              evening from 7:30 p.m. to 9:30 p.m.\n              (with an additional 30-minute grace period)\n            </span>\n            <span class=exam_rooms> in rooms TBA.</span>\n        </p>\n      </div>\n      "

/-- `TermInfo('201930')` — the hard-coded term configuration (file
names omitted; dates as ordinals). -/
def termInfo201930 : TermCfg :=
  { start_date := toordinal 2017 8 28,
    end_date := toordinal 2017 11 9,
    days_of_week := [1, 3, 4],
    weekdays_of_week := [str "Monday", str "Wednesday", str "Thursday"],
    dates_to_skip := [⟨toordinal 2017 8 28, some (str "No class")⟩,
                      ⟨toordinal 2017 8 30, some (str "No class")⟩,
                      ⟨toordinal 2017 10 12, some (str "Fall break")⟩],
    evening_exams := [⟨toordinal 2017 9 14, some exam_msg_201930⟩,
                      ⟨toordinal 2017 10 5, some exam_msg_201930⟩],
    start_session_number := 1,
    number_of_sessions := 30 }

/-! ## Claim C2: the count-mismatch failure -/

/-- C2 (counterexample to the claim as stated): on the empty input with
30 expected sessions the splitter fails, but the raised error is the
fixed string `Number of topics != number of sessions` — it contains no
digit at all, and it is bit-for-bit the same error raised for any other
expected count (here 7), so it does not carry the two counts. -/
theorem split_error_message_carries_no_counts :
    split_into_sessions (str "") 30 = Except.error mismatchMsg
      ∧ mismatchMsg.all (fun c => !c.isDigit) = true
      ∧ split_into_sessions (str "") 30 = split_into_sessions (str "") 7 :=
  ⟨by rfl, by decide, by rfl⟩

/-- C2 (amended): `split_into_sessions` fails exactly when the number
of session fragments (after discarding the text before the first
session marker) differs from `number_of_sessions`; the error it raises
is the fixed `AssertionError` message, without the two counts; and on a
mismatch `make_schedule` aborts with that error before `write_html`, so
no output is produced. -/
theorem split_into_sessions_mismatch_spec (md : List Char → List Char)
    (raw : List Char) (ti : TermCfg) :
    ((∃ e, split_into_sessions raw ti.number_of_sessions = Except.error e)
        ↔ ((reSplitSessions (strip_comments raw)).drop 1).length
            ≠ ti.number_of_sessions)
      ∧ (∀ e, split_into_sessions raw ti.number_of_sessions = Except.error e →
          e = mismatchMsg)
      ∧ (((reSplitSessions (strip_comments raw)).drop 1).length
            ≠ ti.number_of_sessions →
          make_schedule md raw ti = Except.error mismatchMsg) := by
  refine ⟨⟨?_, ?_⟩, ?_, ?_⟩
  · rintro ⟨e, he⟩ hc
    unfold split_into_sessions at he
    rw [if_pos hc] at he
    exact absurd he (by simp)
  · intro hc
    refine ⟨mismatchMsg, ?_⟩
    unfold split_into_sessions
    rw [if_neg hc]
  · intro e he
    by_cases hc : ((reSplitSessions (strip_comments raw)).drop 1).length
        = ti.number_of_sessions
    · unfold split_into_sessions at he
      rw [if_pos hc] at he
      exact absurd he (by simp)
    · unfold split_into_sessions at he
      rw [if_neg hc] at he
      exact (Except.error.inj he).symm
  · intro hc
    unfold make_schedule split_into_sessions
    rw [if_neg hc]

theorem split_into_sessions_mismatch_spec_witness :
    ((reSplitSessions (strip_comments (str ""))).drop 1).length
        ≠ termInfo201930.number_of_sessions
      ∧ make_schedule (fun x => x) (str "") termInfo201930
          = Except.error mismatchMsg :=
  ⟨by decide,
    (split_into_sessions_mismatch_spec (fun x => x) (str "") termInfo201930).2.2
      (by decide)⟩

/-! ## Claim C6: row-major table assembly -/

theorem foldl_append_eq_join {α : Type} (g : List Char → α → List Char)
    (f : α → List Char) (hg : ∀ acc x, g acc x = acc ++ f x) :
    ∀ (l : List α) (acc : List Char),
      l.foldl g acc = acc ++ (l.map f).flatten := by
  intro l
  induction l with
  | nil => intro acc; simp
  | cons x xs ih =>
    intro acc
    rw [List.foldl_cons, hg, ih]
    simp [List.append_assoc]

/-- C6: `make_html_table` is the fixed header (one `<th>` column
heading per configured weekday name), then the sessions in row-major
order — the row-start tag precedes session `k` exactly when
`k % N = 0` and the row-end tag follows it exactly when
`k % N = N - 1`, with `N` the number of configured meeting weekdays —
then the fixed trailer. -/
theorem make_html_table_row_major (ti : TermCfg)
    (session_htmls : List (List Char)) (hN : 0 < ti.days_of_week.length) :
    make_html_table ti session_htmls
      = (HEADER_PREFIX ++ (ti.weekdays_of_week.map TH_FOR_DAY).flatten ++ HEADER_SUFFIX)
          ++ ((List.range session_htmls.length).map (fun k =>
                (if k % ti.days_of_week.length = 0 then ROW_START else [])
                  ++ ITEM_START ++ session_htmls.getD k [] ++ ITEM_END
                  ++ (if k % ti.days_of_week.length = ti.days_of_week.length - 1
                      then ROW_END else []))).flatten
          ++ ScheduleTrailer_html := by
  have _hN := hN
  unfold make_html_table ScheduleHeader_html
  dsimp only
  rw [foldl_append_eq_join _
    (fun k => (if k % ti.days_of_week.length = 0 then ROW_START else [])
      ++ ITEM_START ++ session_htmls.getD k [] ++ ITEM_END
      ++ (if k % ti.days_of_week.length = ti.days_of_week.length - 1
          then ROW_END else []))
    (by intro acc x; simp [List.append_assoc]),
    foldl_append_eq_join _ TH_FOR_DAY (by intro acc x; rfl)]
  simp [List.append_assoc]

theorem make_html_table_row_major_witness :
    0 < wTerm.days_of_week.length
      ∧ make_html_table wTerm [str "A"]
          = (HEADER_PREFIX ++ (wTerm.weekdays_of_week.map TH_FOR_DAY).flatten
              ++ HEADER_SUFFIX)
              ++ ((List.range ([str "A"] : List (List Char)).length).map (fun k =>
                    (if k % wTerm.days_of_week.length = 0 then ROW_START else [])
                      ++ ITEM_START ++ ([str "A"] : List (List Char)).getD k []
                      ++ ITEM_END
                      ++ (if k % wTerm.days_of_week.length
                            = wTerm.days_of_week.length - 1
                          then ROW_END else []))).flatten
              ++ ScheduleTrailer_html :=
  ⟨by decide, make_html_table_row_major wTerm [str "A"] (by decide)⟩

/-! ## Lemmas about `replaceAll` and substring occurrences -/

theorem replaceAll_cons_of_not {old new : List Char} {c : Char} {cs : List Char}
    (h : ¬(old ≠ [] ∧ old.isPrefixOf (c :: cs) = true)) :
    replaceAll old new (c :: cs) = c :: replaceAll old new cs := by
  rw [replaceAll]
  exact if_neg h

theorem replaceAll_head_match {old : List Char} (new s : List Char)
    (hold : old ≠ []) :
    replaceAll old new (old ++ s) = new ++ replaceAll old new s := by
  cases old with
  | nil => exact absurd rfl hold
  | cons o os =>
    have hpre : (o :: os).isPrefixOf (o :: os ++ s) = true :=
      List.isPrefixOf_iff_prefix.mpr ⟨s, rfl⟩
    rw [List.cons_append, replaceAll, if_pos ⟨by simp, by rw [← List.cons_append]; exact hpre⟩]
    congr 1
    rw [show (o :: os).length - 1 = os.length from rfl]
    exact congrArg _ (List.drop_left os s)

theorem replaceAll_append_clean {old : List Char} (new : List Char)
    {p : List Char} (hp : ∀ c ∈ p, old.head? ≠ some c) (s : List Char) :
    replaceAll old new (p ++ s) = p ++ replaceAll old new s := by
  induction p with
  | nil => simp
  | cons c cs ih =>
    rw [List.cons_append, replaceAll_cons_of_not, List.cons_append,
      ih (fun x hx => hp x (List.mem_cons_of_mem c hx))]
    rintro ⟨hne, hpre⟩
    cases old with
    | nil => exact hne rfl
    | cons o os =>
      have hco := hp c (List.mem_cons_self c cs)
      simp only [List.isPrefixOf, Bool.and_eq_true, beq_iff_eq] at hpre
      exact hco (by simp [hpre.1])

theorem substr_cons_eq_false {n : List Char} {c : Char} {cs : List Char}
    (h : substr n (c :: cs) = false) :
    n.isPrefixOf (c :: cs) = false ∧ substr n cs = false := by
  rw [substr, Bool.or_eq_false_iff] at h
  exact h

theorem replaceAll_no_occur {old : List Char} (new : List Char) {s : List Char}
    (h : substr old s = false) : replaceAll old new s = s := by
  induction s with
  | nil => rw [replaceAll]
  | cons c cs ih =>
    rcases substr_cons_eq_false h with ⟨h1, h2⟩
    rw [replaceAll_cons_of_not (fun hc => by rw [hc.2] at h1; exact Bool.noConfusion h1),
      ih h2]

theorem mem_of_substr {n h : List Char} (hs : substr n h = true) :
    ∀ c ∈ n, c ∈ h := by
  rcases substr_iff.mp hs with ⟨x, y, rfl⟩
  intro c hc
  exact List.mem_append.mpr (Or.inr (List.mem_append.mpr (Or.inl hc)))

theorem substr_eq_false_of_not_mem {n h : List Char} {c : Char}
    (hcn : c ∈ n) (hch : c ∉ h) : substr n h = false := by
  by_contra hc
  rw [Bool.not_eq_false] at hc
  exact hch (mem_of_substr hc c hcn)

theorem not_prefixOf_clean {x : Char} {l b : List Char}
    (hb : ∀ c ∈ b, x ≠ c) : (x :: l).isPrefixOf b = false := by
  cases b with
  | nil => rfl
  | cons c bs =>
    rw [List.isPrefixOf]
    have := hb c (List.mem_cons_self c bs)
    simp [this]

theorem substr_append_parts {p a b : List Char} (h : substr p (a ++ b) = true) :
    substr p a = true ∨ substr p b = true
      ∨ ∃ i, 0 < i ∧ i < p.length
          ∧ (p.take i).isSuffixOf a = true ∧ (p.drop i).isPrefixOf b = true := by
  rcases substr_iff.mp h with ⟨x, y, hxy⟩
  have hlen := congrArg List.length hxy
  simp only [List.length_append] at hlen
  by_cases h1 : x.length + p.length ≤ a.length
  · have ha : a = (x ++ (p ++ y)).take a.length := by
      rw [← hxy]
      exact (List.take_left a b).symm
    rw [List.take_append_eq_append_take,
      List.take_of_length_le (show x.length ≤ a.length by omega),
      List.take_append_eq_append_take,
      List.take_of_length_le (show p.length ≤ a.length - x.length by omega)] at ha
    exact Or.inl (substr_iff.mpr ⟨x, y.take (a.length - x.length - p.length), ha⟩)
  · by_cases h2 : a.length ≤ x.length
    · have hb : b = (x ++ (p ++ y)).drop a.length := by
        rw [← hxy]
        exact (List.drop_left a b).symm
      rw [List.drop_append_eq_append_drop,
        show a.length - x.length = 0 from by omega, List.drop_zero] at hb
      exact Or.inr (Or.inl (substr_iff.mpr ⟨x.drop a.length, y, hb⟩))
    · have ha : a = (x ++ (p ++ y)).take a.length := by
        rw [← hxy]
        exact (List.take_left a b).symm
      rw [List.take_append_eq_append_take,
        List.take_of_length_le (show x.length ≤ a.length by omega),
        List.take_append_eq_append_take,
        show a.length - x.length - p.length = 0 from by omega,
        List.take_zero, List.append_nil] at ha
      have hb : b = (x ++ (p ++ y)).drop a.length := by
        rw [← hxy]
        exact (List.drop_left a b).symm
      rw [List.drop_append_eq_append_drop,
        List.drop_eq_nil_of_le (show x.length ≤ a.length by omega), List.nil_append,
        List.drop_append_eq_append_drop,
        show a.length - x.length - p.length = 0 from by omega,
        List.drop_zero] at hb
      refine Or.inr (Or.inr ⟨a.length - x.length, by omega, by omega, ?_, ?_⟩)
      · rw [List.isSuffixOf_iff_suffix]
        exact ⟨x, ha.symm⟩
      · rw [List.isPrefixOf_iff_prefix]
        exact ⟨y, hb.symm⟩

theorem substr_append_eq_false {p a b : List Char}
    (h1 : substr p a = false) (h2 : substr p b = false)
    (h3 : ∀ i, 0 < i → i < p.length →
        ¬((p.take i).isSuffixOf a = true ∧ (p.drop i).isPrefixOf b = true)) :
    substr p (a ++ b) = false := by
  by_contra hc
  rw [Bool.not_eq_false] at hc
  rcases substr_append_parts hc with h | h | ⟨i, hi1, hi2, hi⟩
  · rw [h1] at h; exact Bool.noConfusion h
  · rw [h2] at h; exact Bool.noConfusion h
  · exact h3 i hi1 hi2 hi

/-! ## Parenthetical rewriting (ScheduleMaker.make_html_from_topics, lines 328-337)

The placeholder strings and the seven successive `str.replace` passes
applied to the converted HTML. -/

def DOUBLE_OPEN_PARENTHESES : List Char := str "!!!START_CANNOT_OCCUR_I_HOPE!!!"

def DOUBLE_CLOSE_PARENTHESES : List Char := str "!!!END_CANNOT_OCCUR_I_HOPE!!!"

def parenthetical_rewrite (html : List Char) : List Char :=
  replaceAll DOUBLE_CLOSE_PARENTHESES (str ")")
    (replaceAll DOUBLE_OPEN_PARENTHESES (str "(")
      (replaceAll (str "</span>.") (str ".</span>")
        (replaceAll (str ")") (str ")</span>")
          (replaceAll (str "(") (str "<span class=parenthetical>(")
            (replaceAll (str "))") DOUBLE_CLOSE_PARENTHESES
              (replaceAll (str "((") DOUBLE_OPEN_PARENTHESES html))))))

/-- Plain text: lower-case letters, digits and spaces.  Such text takes
no part in any of the replaced patterns or placeholders. -/
def plainChar (c : Char) : Bool := c.isLower || c.isDigit || c = ' '

theorem plain_not_mem {t : List Char} (ht : t.all plainChar = true) {x : Char}
    (hx : plainChar x = false) : x ∉ t := by
  intro hmem
  rw [List.all_eq_true] at ht
  have := ht x hmem
  rw [this] at hx
  exact Bool.noConfusion hx

theorem skip_of_not_mem {old p : List Char} {x : Char} (hq : old.head? = some x)
    (hx : x ∉ p) : ∀ c ∈ p, old.head? ≠ some c := by
  intro c hc he
  rw [hq] at he
  exact hx ((Option.some.inj he) ▸ hc)

theorem not_prefixOf_of_head {q b : List Char} {x : Char} (hq : q.head? = some x)
    (hb : ∀ c ∈ b, x ≠ c) : q.isPrefixOf b = false := by
  cases q with
  | nil => exact absurd hq (by simp)
  | cons c q' =>
    have hcx : c = x := by simpa using hq
    subst hcx
    exact not_prefixOf_clean hb

theorem not_prefixOf_head_ne {q b : List Char} {x y : Char}
    (hq : q.head? = some x) (hb : b.head? = some y) (hxy : x ≠ y) :
    q.isPrefixOf b = false := by
  cases q with
  | nil => exact absurd hq (by simp)
  | cons c q' =>
    cases b with
    | nil => rfl
    | cons d b' =>
      have hcx : c = x := by simpa using hq
      have hdy : d = y := by simpa using hb
      subst hcx hdy
      rw [List.isPrefixOf]
      simp [hxy]

/-- C7: in the parenthetical rewriting of `make_html_from_topics`, a
double-parenthesis sequence `((text))` in the converted HTML comes out
as the literal `(text)` with no styling span, while a single-parenthesis
span `(text)` comes out wrapped as
`<span class=parenthetical>(text)</span>` — the placeholder
escape/unescape passes protect the double-parenthesis case from the
single-parenthesis rewrite.  `text` and the surrounding HTML are plain
text (lower-case letters, digits, spaces), which keeps them out of
every replaced pattern. -/
theorem parenthetical_rewrite_roundtrip (a t b : List Char)
    (ha : a.all plainChar = true) (ht : t.all plainChar = true)
    (hb : b.all plainChar = true) :
    parenthetical_rewrite (a ++ str "((" ++ t ++ str "))" ++ b)
        = a ++ str "(" ++ t ++ str ")" ++ b
      ∧ parenthetical_rewrite (a ++ str "(" ++ t ++ str ")" ++ b)
        = a ++ str "<span class=parenthetical>(" ++ t ++ str ")</span>" ++ b := by
  have hnm : ∀ (x : Char), plainChar x = false → x ∉ a ∧ x ∉ t ∧ x ∉ b :=
    fun x hx => ⟨plain_not_mem ha hx, plain_not_mem ht hx, plain_not_mem hb hx⟩
  have hdop : DOUBLE_OPEN_PARENTHESES.head? = some '!' := rfl
  have hdcp : DOUBLE_CLOSE_PARENTHESES.head? = some '!' := rfl
  have hop2 : (str "((").head? = some '(' := rfl
  have hcp2 : (str "))").head? = some ')' := rfl
  have hop1 : (str "(").head? = some '(' := rfl
  have hcp1 : (str ")").head? = some ')' := rfl
  have hspd : (str "</span>.").head? = some '<' := rfl
  constructor
  · unfold parenthetical_rewrite
    have h1 : replaceAll (str "((") DOUBLE_OPEN_PARENTHESES
        (a ++ (str "((" ++ (t ++ (str "))" ++ b))))
        = a ++ (DOUBLE_OPEN_PARENTHESES ++ (t ++ (str "))" ++ b))) := by
      rw [replaceAll_append_clean _ (skip_of_not_mem hop2 (hnm '(' (by decide)).1),
        replaceAll_head_match _ _ (by decide),
        replaceAll_append_clean _ (skip_of_not_mem hop2 (hnm '(' (by decide)).2.1),
        replaceAll_no_occur _ (substr_eq_false_of_not_mem
          (show '(' ∈ str "((" by decide) ?_)]
      intro hmem
      rcases List.mem_append.mp hmem with h | h
      · exact absurd h (by decide)
      · exact (hnm '(' (by decide)).2.2 h
    have h2 : replaceAll (str "))") DOUBLE_CLOSE_PARENTHESES
        (a ++ (DOUBLE_OPEN_PARENTHESES ++ (t ++ (str "))" ++ b))))
        = a ++ (DOUBLE_OPEN_PARENTHESES ++ (t ++ (DOUBLE_CLOSE_PARENTHESES ++ b))) := by
      rw [replaceAll_append_clean _ (skip_of_not_mem hcp2 (hnm ')' (by decide)).1),
        replaceAll_append_clean _ (skip_of_not_mem hcp2
          (show ')' ∉ DOUBLE_OPEN_PARENTHESES by decide)),
        replaceAll_append_clean _ (skip_of_not_mem hcp2 (hnm ')' (by decide)).2.1),
        replaceAll_head_match _ _ (by decide),
        replaceAll_no_occur _ (substr_eq_false_of_not_mem
          (show ')' ∈ str "))" by decide)
          (fun h => (hnm ')' (by decide)).2.2 h))]
    have h3 : replaceAll (str "(") (str "<span class=parenthetical>(")
        (a ++ (DOUBLE_OPEN_PARENTHESES ++ (t ++ (DOUBLE_CLOSE_PARENTHESES ++ b))))
        = a ++ (DOUBLE_OPEN_PARENTHESES ++ (t ++ (DOUBLE_CLOSE_PARENTHESES ++ b))) := by
      rw [replaceAll_no_occur _ (substr_eq_false_of_not_mem
        (show '(' ∈ str "(" by decide) ?_)]
      intro hmem
      simp only [List.mem_append] at hmem
      rcases hmem with h | h | h | h | h
      · exact (hnm '(' (by decide)).1 h
      · exact absurd h (by decide)
      · exact (hnm '(' (by decide)).2.1 h
      · exact absurd h (by decide)
      · exact (hnm '(' (by decide)).2.2 h
    have h4 : replaceAll (str ")") (str ")</span>")
        (a ++ (DOUBLE_OPEN_PARENTHESES ++ (t ++ (DOUBLE_CLOSE_PARENTHESES ++ b))))
        = a ++ (DOUBLE_OPEN_PARENTHESES ++ (t ++ (DOUBLE_CLOSE_PARENTHESES ++ b))) := by
      rw [replaceAll_no_occur _ (substr_eq_false_of_not_mem
        (show ')' ∈ str ")" by decide) ?_)]
      intro hmem
      simp only [List.mem_append] at hmem
      rcases hmem with h | h | h | h | h
      · exact (hnm ')' (by decide)).1 h
      · exact absurd h (by decide)
      · exact (hnm ')' (by decide)).2.1 h
      · exact absurd h (by decide)
      · exact (hnm ')' (by decide)).2.2 h
    have h5 : replaceAll (str "</span>.") (str ".</span>")
        (a ++ (DOUBLE_OPEN_PARENTHESES ++ (t ++ (DOUBLE_CLOSE_PARENTHESES ++ b))))
        = a ++ (DOUBLE_OPEN_PARENTHESES ++ (t ++ (DOUBLE_CLOSE_PARENTHESES ++ b))) := by
      rw [replaceAll_no_occur _ (substr_eq_false_of_not_mem
        (show '<' ∈ str "</span>." by decide) ?_)]
      intro hmem
      simp only [List.mem_append] at hmem
      rcases hmem with h | h | h | h | h
      · exact (hnm '<' (by decide)).1 h
      · exact absurd h (by decide)
      · exact (hnm '<' (by decide)).2.1 h
      · exact absurd h (by decide)
      · exact (hnm '<' (by decide)).2.2 h
    have hDCPb : substr DOUBLE_OPEN_PARENTHESES (DOUBLE_CLOSE_PARENTHESES ++ b)
        = false := by
      apply substr_append_eq_false (by decide)
        (substr_eq_false_of_not_mem (show '!' ∈ DOUBLE_OPEN_PARENTHESES by decide)
          (fun h => (hnm '!' (by decide)).2.2 h))
      intro i hi1 hi2 hc
      have hbang : ∀ c ∈ b, '!' ≠ c :=
        fun c hcb he => (hnm '!' (by decide)).2.2 (he ▸ hcb)
      have hd1 : (DOUBLE_OPEN_PARENTHESES.drop 1).isPrefixOf b = false := by
        rw [show DOUBLE_OPEN_PARENTHESES.drop 1
            = '!' :: DOUBLE_OPEN_PARENTHESES.drop 2 from rfl]
        exact not_prefixOf_clean hbang
      have hd2 : (DOUBLE_OPEN_PARENTHESES.drop 2).isPrefixOf b = false := by
        rw [show DOUBLE_OPEN_PARENTHESES.drop 2
            = '!' :: DOUBLE_OPEN_PARENTHESES.drop 3 from rfl]
        exact not_prefixOf_clean hbang
      have hd3 : (DOUBLE_OPEN_PARENTHESES.drop 3).isPrefixOf b = false := by
        rw [show DOUBLE_OPEN_PARENTHESES.drop 3
            = 'S' :: DOUBLE_OPEN_PARENTHESES.drop 4 from rfl]
        exact not_prefixOf_clean
          (fun c hcb he => (hnm 'S' (by decide)).2.2 (he ▸ hcb))
      rw [show DOUBLE_OPEN_PARENTHESES.length = 31 from rfl] at hi2
      interval_cases i <;>
        first
          | exact absurd hc.1 (by decide)
          | exact Bool.noConfusion (hd1.symm.trans hc.2)
          | exact Bool.noConfusion (hd2.symm.trans hc.2)
          | exact Bool.noConfusion (hd3.symm.trans hc.2)
    have h6 : replaceAll DOUBLE_OPEN_PARENTHESES (str "(")
        (a ++ (DOUBLE_OPEN_PARENTHESES ++ (t ++ (DOUBLE_CLOSE_PARENTHESES ++ b))))
        = a ++ (str "(" ++ (t ++ (DOUBLE_CLOSE_PARENTHESES ++ b))) := by
      rw [replaceAll_append_clean _ (skip_of_not_mem hdop (hnm '!' (by decide)).1),
        replaceAll_head_match _ _ (by decide),
        replaceAll_append_clean _ (skip_of_not_mem hdop (hnm '!' (by decide)).2.1),
        replaceAll_no_occur _ hDCPb]
    have h7 : replaceAll DOUBLE_CLOSE_PARENTHESES (str ")")
        (a ++ (str "(" ++ (t ++ (DOUBLE_CLOSE_PARENTHESES ++ b))))
        = a ++ (str "(" ++ (t ++ (str ")" ++ b))) := by
      rw [replaceAll_append_clean _ (skip_of_not_mem hdcp (hnm '!' (by decide)).1),
        replaceAll_append_clean _ (skip_of_not_mem hdcp
          (show '!' ∉ str "(" by decide)),
        replaceAll_append_clean _ (skip_of_not_mem hdcp (hnm '!' (by decide)).2.1),
        replaceAll_head_match _ _ (by decide),
        replaceAll_no_occur _ (substr_eq_false_of_not_mem
          (show '!' ∈ DOUBLE_CLOSE_PARENTHESES by decide)
          (fun h => (hnm '!' (by decide)).2.2 h))]
    rw [show a ++ str "((" ++ t ++ str "))" ++ b
        = a ++ (str "((" ++ (t ++ (str "))" ++ b))) by simp [List.append_assoc],
      h1, h2, h3, h4, h5, h6, h7]
    simp [List.append_assoc]
  · unfold parenthetical_rewrite
    have hparen_tail : ∀ c ∈ t ++ (str ")" ++ b), '(' ≠ c := by
      intro c hc he
      subst he
      rcases List.mem_append.mp hc with h | h
      · exact (hnm '(' (by decide)).2.1 h
      · rcases List.mem_append.mp h with h2 | h2
        · exact absurd h2 (by decide)
        · exact (hnm '(' (by decide)).2.2 h2
    have hpre1 : (str "((").isPrefixOf ('(' :: (t ++ (str ")" ++ b))) = false := by
      have hin : (str "(").isPrefixOf (t ++ (str ")" ++ b)) = false :=
        not_prefixOf_of_head hop1 hparen_tail
      rw [show str "((" = '(' :: str "(" from rfl, List.isPrefixOf]
      simp [hin]
    have g1 : replaceAll (str "((") DOUBLE_OPEN_PARENTHESES
        (a ++ (str "(" ++ (t ++ (str ")" ++ b))))
        = a ++ (str "(" ++ (t ++ (str ")" ++ b))) := by
      rw [replaceAll_append_clean _ (skip_of_not_mem hop2 (hnm '(' (by decide)).1),
        show str "(" ++ (t ++ (str ")" ++ b))
          = '(' :: (t ++ (str ")" ++ b)) from rfl,
        replaceAll_cons_of_not (fun hcc => Bool.noConfusion (hpre1.symm.trans hcc.2)),
        replaceAll_append_clean _ (skip_of_not_mem hop2 (hnm '(' (by decide)).2.1),
        replaceAll_no_occur _ (substr_eq_false_of_not_mem
          (show '(' ∈ str "((" by decide) ?_)]
      intro hmem
      rcases List.mem_append.mp hmem with h | h
      · exact absurd h (by decide)
      · exact (hnm '(' (by decide)).2.2 h
    have hpre2 : (str "))").isPrefixOf (')' :: b) = false := by
      have hin : (str ")").isPrefixOf b = false :=
        not_prefixOf_of_head hcp1
          (fun c hcb he => (hnm ')' (by decide)).2.2 (he ▸ hcb))
      rw [show str "))" = ')' :: str ")" from rfl, List.isPrefixOf]
      simp [hin]
    have g2 : replaceAll (str "))") DOUBLE_CLOSE_PARENTHESES
        (a ++ (str "(" ++ (t ++ (str ")" ++ b))))
        = a ++ (str "(" ++ (t ++ (str ")" ++ b))) := by
      rw [replaceAll_append_clean _ (skip_of_not_mem hcp2 (hnm ')' (by decide)).1),
        replaceAll_append_clean _ (skip_of_not_mem hcp2
          (show ')' ∉ str "(" by decide)),
        replaceAll_append_clean _ (skip_of_not_mem hcp2 (hnm ')' (by decide)).2.1),
        show str ")" ++ b = ')' :: b from rfl,
        replaceAll_cons_of_not (fun hcc => Bool.noConfusion (hpre2.symm.trans hcc.2)),
        replaceAll_no_occur _ (substr_eq_false_of_not_mem
          (show ')' ∈ str "))" by decide)
          (fun h => (hnm ')' (by decide)).2.2 h))]
    have g3 : replaceAll (str "(") (str "<span class=parenthetical>(")
        (a ++ (str "(" ++ (t ++ (str ")" ++ b))))
        = a ++ (str "<span class=parenthetical>(" ++ (t ++ (str ")" ++ b))) := by
      rw [replaceAll_append_clean _ (skip_of_not_mem hop1 (hnm '(' (by decide)).1),
        replaceAll_head_match _ _ (by decide),
        replaceAll_append_clean _ (skip_of_not_mem hop1 (hnm '(' (by decide)).2.1),
        replaceAll_no_occur _ (substr_eq_false_of_not_mem
          (show '(' ∈ str "(" by decide) ?_)]
      intro hmem
      rcases List.mem_append.mp hmem with h | h
      · exact absurd h (by decide)
      · exact (hnm '(' (by decide)).2.2 h
    have g4 : replaceAll (str ")") (str ")</span>")
        (a ++ (str "<span class=parenthetical>(" ++ (t ++ (str ")" ++ b))))
        = a ++ (str "<span class=parenthetical>(" ++ (t ++ (str ")</span>" ++ b))) := by
      rw [replaceAll_append_clean _ (skip_of_not_mem hcp1 (hnm ')' (by decide)).1),
        replaceAll_append_clean _ (skip_of_not_mem hcp1
          (show ')' ∉ str "<span class=parenthetical>(" by decide)),
        replaceAll_append_clean _ (skip_of_not_mem hcp1 (hnm ')' (by decide)).2.1),
        replaceAll_head_match _ _ (by decide),
        replaceAll_no_occur _ (substr_eq_false_of_not_mem
          (show ')' ∈ str ")" by decide)
          (fun h => (hnm ')' (by decide)).2.2 h))]
    have hpre5a : (str "</span>.").isPrefixOf
        ('<' :: (str "span class=parenthetical>("
          ++ (t ++ (str ")</span>" ++ b)))) = false := by
      have hin : (str "/span>.").isPrefixOf
          (str "span class=parenthetical>(" ++ (t ++ (str ")</span>" ++ b)))
          = false := not_prefixOf_head_ne rfl rfl (by decide)
      rw [show str "</span>." = '<' :: str "/span>." from rfl, List.isPrefixOf]
      simp [hin]
    have hpre5b : (str "</span>.").isPrefixOf (')' :: (str "</span>" ++ b))
        = false := not_prefixOf_head_ne hspd rfl (by decide)
    have hpre5c : (str "</span>.").isPrefixOf ('<' :: (str "/span>" ++ b))
        = false := by
      have hcollapse : (str "</span>.").isPrefixOf ('<' :: (str "/span>" ++ b))
          = (['.'] : List Char).isPrefixOf b := rfl
      rw [hcollapse]
      exact not_prefixOf_of_head rfl
        (fun c hcb he => (hnm '.' (by decide)).2.2 (he ▸ hcb))
    have g5 : replaceAll (str "</span>.") (str ".</span>")
        (a ++ (str "<span class=parenthetical>(" ++ (t ++ (str ")</span>" ++ b))))
        = a ++ (str "<span class=parenthetical>(" ++ (t ++ (str ")</span>" ++ b))) := by
      rw [replaceAll_append_clean _ (skip_of_not_mem hspd (hnm '<' (by decide)).1),
        show str "<span class=parenthetical>(" ++ (t ++ (str ")</span>" ++ b))
          = '<' :: (str "span class=parenthetical>("
              ++ (t ++ (str ")</span>" ++ b))) from rfl,
        replaceAll_cons_of_not (fun hcc => Bool.noConfusion (hpre5a.symm.trans hcc.2)),
        replaceAll_append_clean _ (skip_of_not_mem hspd
          (show '<' ∉ str "span class=parenthetical>(" by decide)),
        replaceAll_append_clean _ (skip_of_not_mem hspd (hnm '<' (by decide)).2.1),
        show str ")</span>" ++ b = ')' :: (str "</span>" ++ b) from rfl,
        replaceAll_cons_of_not (fun hcc => Bool.noConfusion (hpre5b.symm.trans hcc.2)),
        show str "</span>" ++ b = '<' :: (str "/span>" ++ b) from rfl,
        replaceAll_cons_of_not (fun hcc => Bool.noConfusion (hpre5c.symm.trans hcc.2)),
        replaceAll_append_clean _ (skip_of_not_mem hspd
          (show '<' ∉ str "/span>" by decide)),
        replaceAll_no_occur _ (substr_eq_false_of_not_mem
          (show '<' ∈ str "</span>." by decide)
          (fun h => (hnm '<' (by decide)).2.2 h))]
    have g6 : replaceAll DOUBLE_OPEN_PARENTHESES (str "(")
        (a ++ (str "<span class=parenthetical>(" ++ (t ++ (str ")</span>" ++ b))))
        = a ++ (str "<span class=parenthetical>(" ++ (t ++ (str ")</span>" ++ b))) := by
      rw [replaceAll_no_occur _ (substr_eq_false_of_not_mem
        (show '!' ∈ DOUBLE_OPEN_PARENTHESES by decide) ?_)]
      intro hmem
      simp only [List.mem_append] at hmem
      rcases hmem with h | h | h | h | h
      · exact (hnm '!' (by decide)).1 h
      · exact absurd h (by decide)
      · exact (hnm '!' (by decide)).2.1 h
      · exact absurd h (by decide)
      · exact (hnm '!' (by decide)).2.2 h
    have g7 : replaceAll DOUBLE_CLOSE_PARENTHESES (str ")")
        (a ++ (str "<span class=parenthetical>(" ++ (t ++ (str ")</span>" ++ b))))
        = a ++ (str "<span class=parenthetical>(" ++ (t ++ (str ")</span>" ++ b))) := by
      rw [replaceAll_no_occur _ (substr_eq_false_of_not_mem
        (show '!' ∈ DOUBLE_CLOSE_PARENTHESES by decide) ?_)]
      intro hmem
      simp only [List.mem_append] at hmem
      rcases hmem with h | h | h | h | h
      · exact (hnm '!' (by decide)).1 h
      · exact absurd h (by decide)
      · exact (hnm '!' (by decide)).2.1 h
      · exact absurd h (by decide)
      · exact (hnm '!' (by decide)).2.2 h
    rw [show a ++ str "(" ++ t ++ str ")" ++ b
        = a ++ (str "(" ++ (t ++ (str ")" ++ b))) by simp [List.append_assoc],
      g1, g2, g3, g4, g5, g6, g7]
    simp [List.append_assoc]

theorem parenthetical_rewrite_roundtrip_witness :
    ((str "see ").all plainChar = true
      ∧ (str "note 1").all plainChar = true
      ∧ (str " here").all plainChar = true)
      ∧ (parenthetical_rewrite
            (str "see " ++ str "((" ++ str "note 1" ++ str "))" ++ str " here")
          = str "see " ++ str "(" ++ str "note 1" ++ str ")" ++ str " here"
        ∧ parenthetical_rewrite
            (str "see " ++ str "(" ++ str "note 1" ++ str ")" ++ str " here")
          = str "see " ++ str "<span class=parenthetical>(" ++ str "note 1"
              ++ str ")</span>" ++ str " here") :=
  ⟨⟨by decide, by decide, by decide⟩,
    parenthetical_rewrite_roundtrip (str "see ") (str "note 1") (str " here")
      (by decide) (by decide) (by decide)⟩

/-! ## Claim C10: the disabled topics path -/

theorem digitChar_isDigit {k : Nat} (hk : k < 10) :
    (digitChar k).isDigit = true := by
  interval_cases k <;> decide

theorem natToChars_digit :
    ∀ (n : Nat), ∀ c ∈ natToChars n, c.isDigit = true := by
  intro n
  induction n using Nat.strong_induction_on with
  | _ n ih =>
    rw [natToChars]
    split
    · rename_i h10
      intro c hc
      rw [List.mem_singleton] at hc
      subst hc
      exact digitChar_isDigit h10
    · rename_i h10
      intro c hc
      rcases List.mem_append.mp hc with h | h
      · exact ih (n / 10) (Nat.div_lt_self (by omega) (by omega)) c h
      · rw [List.mem_singleton] at h
        subst h
        exact digitChar_isDigit (Nat.mod_lt _ (by omega))

theorem underscore_not_mem_natToChars (n : Nat) : '_' ∉ natToChars n := by
  intro h
  have := natToChars_digit n _ h
  exact absurd this (by decide)

theorem underscore_not_mem_pad2 (n : Nat) : '_' ∉ pad2 n := by
  unfold pad2
  split
  · intro h
    rcases List.mem_cons.mp h with he | hm
    · exact absurd he (by decide)
    · exact underscore_not_mem_natToChars n hm
  · exact underscore_not_mem_natToChars n

theorem underscore_not_mem_monthName (m : Nat) : '_' ∉ monthName m := by
  unfold monthName
  by_cases hlt : m - 1 < monthNames.length
  · have hall : ∀ x ∈ monthNames, '_' ∉ x := by decide
    rw [show monthNames.length = 12 from rfl] at hlt
    set k := m - 1 with hk
    interval_cases k <;> exact hall _ (by decide)
  · rw [List.getD_eq_getElem?_getD, List.getElem?_eq_none (by omega), Option.getD_none]
    simp

theorem underscore_not_mem_date_as_string (d : Nat) :
    '_' ∉ date_as_string d := by
  unfold date_as_string
  intro hmem
  rcases List.mem_append.mp hmem with h | h
  · exact underscore_not_mem_monthName _ h
  · rcases List.mem_cons.mp h with he | hm
    · exact absurd he (by decide)
    · exact underscore_not_mem_natToChars _ hm

theorem prefixOf_append_left {q T r : List Char} (hlen : q.length ≤ T.length)
    (h : q.isPrefixOf (T ++ r) = true) : q.isPrefixOf T = true := by
  rw [List.isPrefixOf_iff_prefix, List.prefix_iff_eq_take] at h ⊢
  rw [List.take_append_eq_append_take,
    show q.length - T.length = 0 from by omega, List.take_zero,
    List.append_nil] at h
  exact h

/-- No occurrence of `session_topics` in the session HTML built from a
benign title conversion `MD` and trailing part `m` (the exam message,
or `[]`). -/
theorem session_html_no_topics (nn dd : Nat) (MD m : List Char)
    (hMD : substr (str "session_topics") MD = false)
    (hm : substr (str "session_topics") m = false) :
    substr (str "session_topics")
      (SESSION_T0 ++ (str "<a href=\"Sessions/Session"
        ++ (pad2 nn ++ (str "/index.html\">Preparation</a>"
        ++ (SESSION_T1 ++ (natToChars nn ++ (SESSION_T2 ++ (date_as_string dd
        ++ (SESSION_T3 ++ (MD ++ (SESSION_T4 ++ m))))))))))) = false := by
  have hlen : (str "session_topics").length = 14 := rfl
  have hun : '_' ∈ str "session_topics" := by decide
  have c11 : substr (str "session_topics") (SESSION_T4 ++ m) = false := by
    apply substr_append_eq_false (by decide) hm
    intro i h1 h2 hc
    rw [hlen] at h2
    interval_cases i <;> exact absurd hc.1 (by decide)
  have c10 : substr (str "session_topics") (MD ++ (SESSION_T4 ++ m)) = false := by
    apply substr_append_eq_false hMD c11
    intro i h1 h2 hc
    rw [hlen] at h2
    interval_cases i <;>
      exact absurd (prefixOf_append_left (by decide) hc.2) (by decide)
  have c9 : substr (str "session_topics")
      (SESSION_T3 ++ (MD ++ (SESSION_T4 ++ m))) = false := by
    apply substr_append_eq_false (by decide) c10
    intro i h1 h2 hc
    rw [hlen] at h2
    interval_cases i <;> exact absurd hc.1 (by decide)
  have c8 : substr (str "session_topics")
      (date_as_string dd ++ (SESSION_T3 ++ (MD ++ (SESSION_T4 ++ m)))) = false := by
    apply substr_append_eq_false
      (substr_eq_false_of_not_mem hun (underscore_not_mem_date_as_string dd)) c9
    intro i h1 h2 hc
    rw [hlen] at h2
    interval_cases i <;>
      exact absurd (prefixOf_append_left (by decide) hc.2) (by decide)
  have c7 : substr (str "session_topics")
      (SESSION_T2 ++ (date_as_string dd ++ (SESSION_T3 ++ (MD
        ++ (SESSION_T4 ++ m))))) = false := by
    apply substr_append_eq_false (by decide) c8
    intro i h1 h2 hc
    rw [hlen] at h2
    interval_cases i <;> exact absurd hc.1 (by decide)
  have c6 : substr (str "session_topics")
      (natToChars nn ++ (SESSION_T2 ++ (date_as_string dd ++ (SESSION_T3
        ++ (MD ++ (SESSION_T4 ++ m)))))) = false := by
    apply substr_append_eq_false
      (substr_eq_false_of_not_mem hun (underscore_not_mem_natToChars nn)) c7
    intro i h1 h2 hc
    rw [hlen] at h2
    interval_cases i <;>
      exact absurd (prefixOf_append_left (by decide) hc.2) (by decide)
  have c5 : substr (str "session_topics")
      (SESSION_T1 ++ (natToChars nn ++ (SESSION_T2 ++ (date_as_string dd
        ++ (SESSION_T3 ++ (MD ++ (SESSION_T4 ++ m))))))) = false := by
    apply substr_append_eq_false (by decide) c6
    intro i h1 h2 hc
    rw [hlen] at h2
    interval_cases i <;> exact absurd hc.1 (by decide)
  have c4 : substr (str "session_topics")
      (str "/index.html\">Preparation</a>" ++ (SESSION_T1 ++ (natToChars nn
        ++ (SESSION_T2 ++ (date_as_string dd ++ (SESSION_T3 ++ (MD
        ++ (SESSION_T4 ++ m)))))))) = false := by
    apply substr_append_eq_false (by decide) c5
    intro i h1 h2 hc
    rw [hlen] at h2
    interval_cases i <;> exact absurd hc.1 (by decide)
  have c3 : substr (str "session_topics")
      (pad2 nn ++ (str "/index.html\">Preparation</a>" ++ (SESSION_T1
        ++ (natToChars nn ++ (SESSION_T2 ++ (date_as_string dd
        ++ (SESSION_T3 ++ (MD ++ (SESSION_T4 ++ m))))))))) = false := by
    apply substr_append_eq_false
      (substr_eq_false_of_not_mem hun (underscore_not_mem_pad2 nn)) c4
    intro i h1 h2 hc
    rw [hlen] at h2
    interval_cases i <;>
      exact absurd (prefixOf_append_left (by decide) hc.2) (by decide)
  have c2 : substr (str "session_topics")
      (str "<a href=\"Sessions/Session" ++ (pad2 nn
        ++ (str "/index.html\">Preparation</a>" ++ (SESSION_T1
        ++ (natToChars nn ++ (SESSION_T2 ++ (date_as_string dd
        ++ (SESSION_T3 ++ (MD ++ (SESSION_T4 ++ m)))))))))) = false := by
    apply substr_append_eq_false (by decide) c3
    intro i h1 h2 hc
    rw [hlen] at h2
    interval_cases i <;> exact absurd hc.1 (by decide)
  apply substr_append_eq_false (by decide) c2
  intro i h1 h2 hc
  rw [hlen] at h2
  interval_cases i <;> exact absurd hc.1 (by decide)

/-- C10: with the shipped `SHOW_TOPICS = False`, `ClassSession.make_html`
never calls `make_topics_html` — whose body references the undefined
name `gfm` and would raise `NameError` (modelled: it always fails) —
and the produced session HTML contains no `session_topics` block: the
rendering succeeds (which it could not, had the failing topics path
run), and whenever the Markdown conversion of the title and the exam
message are free of the string `session_topics`, so is the whole
produced HTML. -/
theorem show_topics_off_no_topics_html (md : List Char → List Char)
    (s : MSession) (n d : Nat) (t : List Char)
    (hn : s.session_number = some n) (hd : s.datetime_date = some d)
    (ht : s.title = some t)
    (hexam : s.session_type = some SessionType.EVENING_EXAM →
      ∃ m, s.message = some m) :
    SHOW_TOPICS = false
      ∧ make_topics_html s = none
      ∧ (∃ h, ClassSession_make_html md s = some h)
      ∧ (∀ h, ClassSession_make_html md s = some h →
          (∀ x, substr (str "session_topics") (md x) = false) →
          (∀ m, s.message = some m → substr (str "session_topics") m = false) →
          substr (str "session_topics") h = false) := by
  by_cases hst : s.session_type = some SessionType.EVENING_EXAM
  · rcases hexam hst with ⟨m0, hm0⟩
    have hred : ClassSession_make_html md s
        = some (SESSION_T0 ++ LINK_TO_PREP n ++ SESSION_T1 ++ natToChars n
            ++ SESSION_T2 ++ date_as_string d ++ SESSION_T3
            ++ md (replaceAll (str "/") (str "<br>\n") t) ++ SESSION_T4 ++ m0) := by
      unfold ClassSession_make_html
      rw [hn, hd, ht]
      simp only [hst, if_pos, hm0, SHOW_TOPICS]
      simp
    refine ⟨rfl, rfl, ⟨_, hred⟩, ?_⟩
    intro h hh h1 h2
    rw [hred] at hh
    have hh2 := Option.some.inj hh
    subst hh2
    have hchain : SESSION_T0 ++ LINK_TO_PREP n ++ SESSION_T1 ++ natToChars n
        ++ SESSION_T2 ++ date_as_string d ++ SESSION_T3
        ++ md (replaceAll (str "/") (str "<br>\n") t) ++ SESSION_T4 ++ m0
        = SESSION_T0 ++ (str "<a href=\"Sessions/Session"
            ++ (pad2 n ++ (str "/index.html\">Preparation</a>"
            ++ (SESSION_T1 ++ (natToChars n ++ (SESSION_T2 ++ (date_as_string d
            ++ (SESSION_T3 ++ (md (replaceAll (str "/") (str "<br>\n") t)
            ++ (SESSION_T4 ++ m0)))))))))) := by
      simp [LINK_TO_PREP, List.append_assoc]
    rw [hchain]
    exact session_html_no_topics n d _ m0 (h1 _) (h2 m0 hm0)
  · have hred : ClassSession_make_html md s
        = some (SESSION_T0 ++ LINK_TO_PREP n ++ SESSION_T1 ++ natToChars n
            ++ SESSION_T2 ++ date_as_string d ++ SESSION_T3
            ++ md (replaceAll (str "/") (str "<br>\n") t) ++ SESSION_T4) := by
      unfold ClassSession_make_html
      rw [hn, hd, ht]
      simp only [hst, if_neg, SHOW_TOPICS]
      simp
    refine ⟨rfl, rfl, ⟨_, hred⟩, ?_⟩
    intro h hh h1 h2
    rw [hred] at hh
    have hh2 := Option.some.inj hh
    subst hh2
    have hchain : SESSION_T0 ++ LINK_TO_PREP n ++ SESSION_T1 ++ natToChars n
        ++ SESSION_T2 ++ date_as_string d ++ SESSION_T3
        ++ md (replaceAll (str "/") (str "<br>\n") t) ++ SESSION_T4
        = SESSION_T0 ++ (str "<a href=\"Sessions/Session"
            ++ (pad2 n ++ (str "/index.html\">Preparation</a>"
            ++ (SESSION_T1 ++ (natToChars n ++ (SESSION_T2 ++ (date_as_string d
            ++ (SESSION_T3 ++ (md (replaceAll (str "/") (str "<br>\n") t)
            ++ (SESSION_T4 ++ ([] : List Char))))))))))) := by
      simp [LINK_TO_PREP, List.append_assoc]
    rw [hchain]
    exact session_html_no_topics n d _ []
      (h1 _) (by rw [show substr (str "session_topics") [] = false from rfl])

def wC10Session : MSession :=
  { datetime_date := some 736569, title := some (str "intro"),
    session_number := some 3, topics := some (str "stuff"),
    session_type := none, message := none }

theorem show_topics_off_no_topics_html_witness :
    (wC10Session.session_number = some 3
      ∧ wC10Session.datetime_date = some 736569
      ∧ wC10Session.title = some (str "intro")
      ∧ (wC10Session.session_type = some SessionType.EVENING_EXAM →
          ∃ m, wC10Session.message = some m))
      ∧ (SHOW_TOPICS = false
        ∧ make_topics_html wC10Session = none
        ∧ (∃ h, ClassSession_make_html (fun _ : List Char => ([] : List Char)) wC10Session = some h)
        ∧ (∀ h, ClassSession_make_html (fun _ : List Char => ([] : List Char)) wC10Session = some h →
            (∀ x, substr (str "session_topics")
              ((fun _ : List Char => ([] : List Char)) x) = false) →
            (∀ m, wC10Session.message = some m →
              substr (str "session_topics") m = false) →
            substr (str "session_topics") h = false)) :=
  ⟨⟨rfl, rfl, rfl, fun hx => absurd hx (by decide)⟩,
    show_topics_off_no_topics_html (fun _ : List Char => ([] : List Char)) wC10Session 3 736569 (str "intro")
      rfl rfl rfl (fun hx => absurd hx (by decide))⟩
